import Mathlib

/-!
Verification of the D2RSG zone filling engine (templatezone.cpp and the
map template reader) against its natural-language specification.

The C++ code is embedded shallowly: tile occupancy is a function from
positions to tile states, the PRNG is an abstract stream of naturals, and
loops that mutate the generator state become folds or fueled recursions.
Machine integers stay within `Nat`/`Int` ranges where the source cannot
overflow; 32-bit float distance values are integral squared distances (or
infinity), modelled as `WithTop Nat`.

Parts of the repository that the claims depend on but whose sources are
not available (random generator, map element geometry, unit/item pickers,
group container) are modelled from the specification; each such definition
carries a doc comment starting with `Modelled from the spec:`.
-/

namespace D2RSG

/-- Integer grid position, from position.h (`Position {x, y}`). -/
structure Pos where
  x : Int
  y : Int
deriving DecidableEq, Repr

/-- Componentwise addition of positions (`Position::operator+`). -/
def Pos.add (a b : Pos) : Pos := ⟨a.x + b.x, a.y + b.y⟩

instance : Add Pos := ⟨Pos.add⟩

/-- `Position::distanceSquared`: squared Euclidean distance, a nonnegative
integer. -/
def Pos.distanceSquared (a b : Pos) : Nat :=
  ((a.x - b.x) * (a.x - b.x) + (a.y - b.y) * (a.y - b.y)).toNat

/-- `Position::isValid` compares against the sentinel `(-1, -1)` used by the
pathfinding code as a stop element. -/
def Pos.isValid (a : Pos) : Bool := a ≠ ⟨-1, -1⟩

/-- Per-tile occupancy state kept by the tile map
(`TileType`: Possible / Free / Blocked / Used). -/
inductive TileType where
  | possible
  | free
  | blocked
  | used
deriving DecidableEq, Repr

/-- `Map::isInTheMap`: the map is a `size × size` square. -/
def inTheMap (size : Nat) (p : Pos) : Bool :=
  0 ≤ p.x && p.x < (size : Int) && 0 ≤ p.y && p.y < (size : Int)

/-- The eight neighbor offsets visited by `foreachNeighbor`. -/
def neighborOffsets : List Pos :=
  [⟨-1, -1⟩, ⟨0, -1⟩, ⟨1, -1⟩, ⟨-1, 0⟩, ⟨1, 0⟩, ⟨-1, 1⟩, ⟨0, 1⟩, ⟨1, 1⟩]

/-- The four straight neighbor offsets visited by `foreachDirectNeighbor`. -/
def directOffsets : List Pos :=
  [⟨0, -1⟩, ⟨-1, 0⟩, ⟨1, 0⟩, ⟨0, 1⟩]

/-- The four diagonal neighbor offsets visited by `foreachDiagonalNeighbor`. -/
def diagonalOffsets : List Pos :=
  [⟨-1, -1⟩, ⟨1, -1⟩, ⟨-1, 1⟩, ⟨1, 1⟩]

/-- In-map 8-neighborhood of a position, the tiles `foreachNeighbor` visits. -/
def neighbors (size : Nat) (p : Pos) : List Pos :=
  (neighborOffsets.map (fun o => p + o)).filter (fun q => inTheMap size q)

/-- In-map straight neighborhood, the tiles `foreachDirectNeighbor` visits. -/
def directNeighbors (size : Nat) (p : Pos) : List Pos :=
  (directOffsets.map (fun o => p + o)).filter (fun q => inTheMap size q)

/-- In-map diagonal neighborhood, the tiles `foreachDiagonalNeighbor` visits. -/
def diagonalNeighbors (size : Nat) (p : Pos) : List Pos :=
  (diagonalOffsets.map (fun o => p + o)).filter (fun q => inTheMap size q)

/-- Modelled from the spec: the seeded PRNG (`RandomGenerator`, source not in
the repository snapshot). An abstract stream of naturals together with the
index of the next draw; every draw consumes one stream element. -/
structure Rng where
  stream : Nat → Nat
  idx : Nat

/-- Modelled from the spec: one raw draw from the PRNG. -/
def Rng.next (r : Rng) : Nat × Rng :=
  (r.stream r.idx, ⟨r.stream, r.idx + 1⟩)

/-- Modelled from the spec: `RandomGenerator::nextInteger(a, b)`, a uniform
integer draw from `[a, b]`. -/
def Rng.nextInteger (r : Rng) (a b : Nat) : Nat × Rng :=
  let (v, r') := r.next
  if a ≤ b then (a + v % (b - a + 1), r') else (a, r')

/-- Modelled from the spec: `RandomGenerator::pickValue(RandomValue{min,max})`
returns a uniform integer in `[min, max]`. -/
def Rng.pickValue (r : Rng) (v : Nat × Nat) : Nat × Rng :=
  r.nextInteger v.1 v.2

/-- Modelled from the spec: `RandomGenerator::chance(percent)` succeeds with
the given percent probability. -/
def Rng.chance (r : Rng) (percent : Nat) : Bool × Rng :=
  let (v, r') := r.next
  (v % 100 < percent, r')

/-! ## C6: TemplateZone::updateDistances -/

/-- `TemplateZone::updateDistances(position)`: for each tile of the zone's
`possibleTiles`, store `min(squaredDistance(position, tile), current)` as its
nearest-object distance. Distances are 32-bit floats holding either exact
integral squared distances or +infinity, modelled as `WithTop Nat`. -/
def updateDistances (possibleTiles : List Pos) (dist : Pos → WithTop Nat)
    (position : Pos) : Pos → WithTop Nat :=
  possibleTiles.foldl
    (fun d tile => fun t =>
      if t = tile then
        min ((position.distanceSquared tile : Nat) : WithTop Nat) (d tile)
      else d t)
    dist

/-! ## C7: TemplateZone::createBorder -/

/-- Zone border policy (`ZoneBorderType`). -/
inductive ZoneBorderType where
  | water
  | opened
  | closed
  | semiOpen
deriving DecidableEq, Repr

/-- The slice of generator state read and written by `createBorder`:
occupancy, whether neutral water has been painted on a tile, and the PRNG. -/
structure BorderState where
  occ : Pos → TileType
  waterPainted : Pos → Bool
  rng : Rng

/-- A tile has some in-map neighbor lying in another zone; the border test of
`TemplateZone::createBorder`. -/
def hasOtherZoneNeighbor (size : Nat) (zoneId : Pos → Nat) (id : Nat)
    (tile : Pos) : Bool :=
  (neighbors size tile).any (fun p => zoneId p ≠ id)

/-- Processing of one tile by `TemplateZone::createBorder`: if the tile
borders another zone and is `Possible`, apply the zone's border policy
(Water paints neutral water and frees, Open frees, Closed blocks, SemiOpen
frees with probability `gapChance` percent and blocks otherwise). -/
def createBorderStep (size : Nat) (zoneId : Pos → Nat) (id : Nat)
    (borderType : ZoneBorderType) (gapChance : Nat) (st : BorderState)
    (tile : Pos) : BorderState :=
  if hasOtherZoneNeighbor size zoneId id tile && st.occ tile = TileType.possible then
    match borderType with
    | ZoneBorderType.water =>
        { st with
          occ := fun t => if t = tile then TileType.free else st.occ t
          waterPainted := fun t => if t = tile then true else st.waterPainted t }
    | ZoneBorderType.opened =>
        { st with occ := fun t => if t = tile then TileType.free else st.occ t }
    | ZoneBorderType.closed =>
        { st with occ := fun t => if t = tile then TileType.blocked else st.occ t }
    | ZoneBorderType.semiOpen =>
        let (gap, rng') := st.rng.chance gapChance
        { st with
          occ := fun t =>
            if t = tile then (if gap then TileType.free else TileType.blocked)
            else st.occ t
          rng := rng' }
  else st

/-- `TemplateZone::createBorder`: fold the border policy over the zone's
tiles (`tileInfo`). -/
def createBorder (size : Nat) (zoneId : Pos → Nat) (id : Nat)
    (borderType : ZoneBorderType) (gapChance : Nat) (tileInfo : List Pos)
    (st : BorderState) : BorderState :=
  tileInfo.foldl (createBorderStep size zoneId id borderType gapChance) st

/-! ## C9: template validation (maptemplatereader.cpp) -/

/-- A diplomacy relation record read by `readDiplomacyRelation`
(`MapTemplateDiplomacy::Relation`). Races are represented by their enum
values. Equality of relations (the `==` used by the duplicate check, whose
definition lives in a header outside this snapshot) is modelled from the
spec as equality of all fields. -/
structure DipRelation where
  raceA : Nat
  raceB : Nat
  relation : Nat
  alliance : Bool
  alwaysAtWar : Bool
  permanentAlliance : Bool
deriving DecidableEq, Repr

/-- The validation performed by `readDiplomacyRelation` after field reads
(field reads themselves clamp and cannot fail): races cannot be allies and
always at war at the same time, and a permanent alliance requires an
alliance. -/
def readDiplomacyRelation (r : DipRelation) : Except String DipRelation :=
  if r.alliance && r.alwaysAtWar then
    Except.error "Races cannot be allies and always at war at the same time"
  else if r.permanentAlliance && !r.alliance then
    Except.error "Races must be allies for permanent AI alliance"
  else
    Except.ok r

/-- The disjunction of the two conditions `readDiplomacyRelation` throws on. -/
def badRelation (r : DipRelation) : Bool :=
  (r.alliance && r.alwaysAtWar) || (r.permanentAlliance && !r.alliance)

/-- The pairwise duplicate scan of `readDiplomacy`: some relation appears
twice at distinct indices. -/
def hasDuplicateRelation : List DipRelation → Bool
  | [] => false
  | r :: rest => decide (r ∈ rest) || hasDuplicateRelation rest

/-- The reading loop of `readDiplomacy`: validate each relation in order,
propagating the first failure. -/
def validateRelations : List DipRelation → Except String (List DipRelation)
  | [] => Except.ok []
  | r :: rest =>
      match readDiplomacyRelation r with
      | Except.error e => Except.error e
      | Except.ok v =>
          match validateRelations rest with
          | Except.error e => Except.error e
          | Except.ok vs => Except.ok (v :: vs)

/-- `readDiplomacy`: read every relation (validating each), then reject
duplicate relations. -/
def readDiplomacy (rels : List DipRelation) : Except String (List DipRelation) :=
  match validateRelations rels with
  | Except.error e => Except.error e
  | Except.ok checked =>
      if hasDuplicateRelation checked then
        Except.error "Duplicate diplomacy relations found"
      else
        Except.ok checked

/-- Zone types (`TemplateZoneType`). -/
inductive TemplateZoneType where
  | playerStart
  | aiStart
  | treasure
  | junction
  | water
deriving DecidableEq, Repr

/-- The effective `maxPlayers` used by `readContents`: the value read from
the contents table is clamped to `[0, 4]` and overrides the settings value
when positive. -/
def effectiveMaxPlayers (settingsMaxPlayers contentsMaxPlayers : Nat) : Nat :=
  if 0 < min contentsMaxPlayers 4 then min contentsMaxPlayers 4
  else settingsMaxPlayers

/-- The count of player or AI starting zones computed by `readContents`. -/
def startingZoneCount (zoneTypes : List TemplateZoneType) : Nat :=
  (zoneTypes.filter (fun t =>
    t = TemplateZoneType.playerStart ∨ t = TemplateZoneType.aiStart)).length

/-- The starting-zone validation of `readContents`: the number of player or
AI starting zones must not exceed the effective player limit. -/
def readContentsCheck (settingsMaxPlayers : Nat) (contentsMaxPlayers : Nat)
    (zoneTypes : List TemplateZoneType) : Except String Nat :=
  if effectiveMaxPlayers settingsMaxPlayers contentsMaxPlayers <
      startingZoneCount zoneTypes then
    Except.error "Invalid template contents: too many starting zones"
  else
    Except.ok (effectiveMaxPlayers settingsMaxPlayers contentsMaxPlayers)

/-! ## C2: TemplateZone::findPlaceForObject -/

/-- Modelled from the spec: `MapElement` (its header is outside the
snapshot). A rectangular footprint of size `(w, h)`; `isVisitableFrom` is
the per-element visitability direction test, kept abstract. -/
structure MapElem where
  sizeW : Nat
  sizeH : Nat
  visitableFrom : Pos → Bool

/-- Modelled from the spec: the entrance offset is the bottom-center tile
`(floor(w/2), h-1)` of the footprint. -/
def MapElem.entranceOffset (e : MapElem) : Pos :=
  ⟨(e.sizeW / 2 : Nat), (e.sizeH : Int) - 1⟩

/-- All offsets of the `w × h` footprint rectangle. -/
def MapElem.rectOffsets (e : MapElem) : List Pos :=
  (List.range e.sizeH).flatMap (fun y =>
    (List.range e.sizeW).map (fun x => (⟨x, y⟩ : Pos)))

/-- Modelled from the spec: `MapElement::getBlockedOffsets`, the footprint
offsets excluding the entrance offset (`placeObject` re-inserts the entrance
separately). -/
def MapElem.blockedOffsets (e : MapElem) : List Pos :=
  e.rectOffsets.filter (fun o => o ≠ e.entranceOffset)

/-- Modelled from the spec: `MapElement::getEntranceOffsets`, the 1-tile
neighborhood around the entrance used for entrance-reachability tests. -/
def MapElem.entranceOffsets (_ : MapElem) : List Pos :=
  ⟨0, 0⟩ :: neighborOffsets

/-- The generator state slice read by the placement search: map size, the
calling zone's id, per-tile zone ids, occupancy and nearest-object
distances. -/
structure PlaceCtx where
  mapSize : Nat
  id : Nat
  zoneId : Pos → Nat
  occ : Pos → TileType
  nearDist : Pos → WithTop Nat

/-- `Map::isAtTheBorder(mapElement, position)` (body outside the snapshot);
modelled from the spec as: some footprint tile lies on the map border. -/
def elemAtTheBorder (size : Nat) (e : MapElem) (p : Pos) : Bool :=
  (e.rectOffsets.map (fun o => p + o)).any (fun q =>
    q.x = 0 || q.x = (size : Int) - 1 || q.y = 0 || q.y = (size : Int) - 1)

/-- The 8 offsets scanned by `TemplateZone::getAccessibleOffset`, in the
source's loop order (`x` outer from -1 to 1, `y` inner, skipping `(0,0)`). -/
def accessibleScanOffsets : List Pos :=
  [⟨-1, -1⟩, ⟨-1, 0⟩, ⟨-1, 1⟩, ⟨0, -1⟩, ⟨0, 1⟩, ⟨1, -1⟩, ⟨1, 0⟩, ⟨1, 1⟩]

/-- `TemplateZone::getAccessibleOffset`: scan the 1-tile radius around the
element's entrance; keep the last in-map, unblocked, in-zone, visitable tile
whose offset is not part of the element's own footprint. -/
def getAccessibleOffset (ctx : PlaceCtx) (e : MapElem) (position : Pos) : Pos :=
  accessibleScanOffsets.foldl
    (fun result xy =>
      let offset := xy + e.entranceOffset
      if e.blockedOffsets.contains offset then result
      else
        let nearbyPos := position + offset
        if !inTheMap ctx.mapSize nearbyPos then result
        else if e.visitableFrom xy && !(ctx.occ nearbyPos = TileType.blocked)
            && ctx.zoneId nearbyPos = ctx.id then
          nearbyPos
        else result)
    ⟨-1, -1⟩

/-- `TemplateZone::isAccessibleFromSomewhere`. -/
def isAccessibleFromSomewhere (ctx : PlaceCtx) (e : MapElem)
    (position : Pos) : Bool :=
  (getAccessibleOffset ctx e position).isValid

/-- `TemplateZone::isEntranceAccessible`: every tile of the entrance
neighborhood is in the map and not blocked. -/
def isEntranceAccessible (ctx : PlaceCtx) (e : MapElem) (position : Pos) : Bool :=
  e.entranceOffsets.all (fun offset =>
    let entranceTile := position + e.entranceOffset + offset
    inTheMap ctx.mapSize entranceTile &&
      !(ctx.occ entranceTile = TileType.blocked))

/-- `TemplateZone::areAllTilesAvailable`: every blocked-offset tile is in
the map, `Possible`, and belongs to the calling zone. -/
def areAllTilesAvailable (ctx : PlaceCtx) (e : MapElem) (position : Pos) : Bool :=
  e.blockedOffsets.all (fun offset =>
    let t := position + offset
    inTheMap ctx.mapSize t && ctx.occ t = TileType.possible &&
      ctx.zoneId t = ctx.id)

/-- One iteration of the `findPlaceForObject` scan: the accumulator is the
best distance so far (initially 0) and the best position found. -/
def findPlaceStep (ctx : PlaceCtx) (e : MapElem) (minDistance : Nat)
    (findAccessible : Bool) (st : WithTop Nat × Option Pos) (tile : Pos) :
    WithTop Nat × Option Pos :=
  if elemAtTheBorder ctx.mapSize e tile then st
  else if findAccessible && !isAccessibleFromSomewhere ctx e tile then st
  else if findAccessible && !isEntranceAccessible ctx e tile then st
  else if !(ctx.occ tile = TileType.possible) then st
  else
    let d := ctx.nearDist tile
    if (minDistance : WithTop Nat) ≤ d ∧ st.1 < d then
      if areAllTilesAvailable ctx e tile then (d, some tile) else st
    else st

/-- `TemplateZone::findPlaceForObject`: scan the area, keeping the `Possible`
tile of maximal nearest-object distance that passes the border,
accessibility, minimum-distance and footprint-availability checks. Returns
the chosen position, or `none` when the scan accepted no tile. -/
def findPlaceForObject (ctx : PlaceCtx) (area : List Pos) (e : MapElem)
    (minDistance : Nat) (findAccessible : Bool) : Option Pos :=
  (area.foldl (findPlaceStep ctx e minDistance findAccessible) (0, none)).2

/-- The constraints the claim lists for an acceptable tile: `Possible`,
nearest-object distance at least `minDistance`, and every blocked-offset
tile `Possible` and inside the calling zone. -/
def claimC2Ok (ctx : PlaceCtx) (e : MapElem) (minDistance : Nat)
    (tile : Pos) : Prop :=
  ctx.occ tile = TileType.possible ∧
  (minDistance : WithTop Nat) ≤ ctx.nearDist tile ∧
  ∀ o ∈ e.blockedOffsets,
    ctx.occ (tile + o) = TileType.possible ∧ ctx.zoneId (tile + o) = ctx.id

/-- The full acceptance predicate actually enforced by the source: the
claim's constraints plus: the element must not touch the map border, the
accessibility tests must pass when requested, every blocked-offset tile must
also be in the map, and the nearest-object distance must be positive
(the scan starts with best distance 0 and demands a strict improvement). -/
def findPlaceOk (ctx : PlaceCtx) (e : MapElem) (minDistance : Nat)
    (findAccessible : Bool) (tile : Pos) : Prop :=
  elemAtTheBorder ctx.mapSize e tile = false ∧
  (findAccessible = true →
    isAccessibleFromSomewhere ctx e tile = true ∧
    isEntranceAccessible ctx e tile = true) ∧
  ctx.occ tile = TileType.possible ∧
  (minDistance : WithTop Nat) ≤ ctx.nearDist tile ∧
  0 < ctx.nearDist tile ∧
  areAllTilesAvailable ctx e tile = true

/-! ## C10: TemplateZone::placeObject (Fortification and Ruin variants) -/

/-- Ground types (`GroundType`). -/
inductive GroundType where
  | plain
  | forest
  | water
  | mountain
deriving DecidableEq, Repr

/-- `Tile::setTerrainGround`: mountains and water tiles always belong to the
neutral race (terrain 0 models `TerrainType::Neutral`). -/
def setTerrainGround (terrain : Nat) (ground : GroundType) : Nat × GroundType :=
  if ground = GroundType.water ∨ ground = GroundType.mountain then (0, ground)
  else (terrain, ground)

/-- The generator state mutated by the `placeObject` overloads: occupancy,
painted terrain/ground, the map-element index, the object store, road
nodes, nearest-object distances and the zone's `possibleTiles` (read by
`updateDistances`). -/
structure PlaceObjState where
  mapSize : Nat
  occ : Pos → TileType
  terrain : Pos → Nat × GroundType
  mapElements : List (Nat × Pos)
  objects : List Nat
  roadNodes : List Pos
  possibleTiles : List Pos
  nearDist : Pos → WithTop Nat

/-- A fortification as seen by `placeObject`: its object id, its map-element
geometry, its gap mask, and (modelled from the spec, the mask decoding being
in the missing map element header) the soft tiles `getTilesByMask` yields
for a given position. -/
structure FortificationM where
  id : Nat
  elem : MapElem
  gapMask : Nat
  gapTiles : Pos → List Pos

/-- A ruin as seen by `placeObject`: object id and geometry. -/
structure RuinM where
  id : Nat
  elem : MapElem

/-- The commit loop shared by the `placeObject` overloads: mark each tile of
the footprint-plus-entrance set `Used`, painting race terrain under it when
requested (the fortification overload passes a terrain, the others do
not). -/
def markUsedTiles (tiles : List Pos) (paint : Option Nat)
    (st : PlaceObjState) : PlaceObjState :=
  tiles.foldl
    (fun s tile =>
      let s' := { s with occ := fun t => if t = tile then TileType.used else s.occ t }
      match paint with
      | none => s'
      | some terrain =>
          { s' with terrain := fun t =>
              if t = tile then setTerrainGround terrain GroundType.plain
              else s.terrain t })
    st

/-- One iteration of the gap-mask loop of the fortification `placeObject`
overload: set the gap tile `Free` unless it is part of the used set or
outside the map. -/
def freeGapStep (blocked : List Pos) (s : PlaceObjState) (tile : Pos) :
    PlaceObjState :=
  if tile ∈ blocked then s
  else if ¬ inTheMap s.mapSize tile then s
  else { s with occ := fun t => if t = tile then TileType.free else s.occ t }

/-- The gap-mask loop of the fortification `placeObject` overload. -/
def freeGapTiles (blocked : List Pos) (tiles : List Pos)
    (st : PlaceObjState) : PlaceObjState :=
  tiles.foldl (freeGapStep blocked) st

/-- `TemplateZone::placeObject(unique_ptr<Fortification>, position, terrain,
updateDistance)`: validate position and entrance, mark footprint and
entrance `Used` painting race terrain, free the gap-mask tiles, update
distances, register a road node at the entrance, then insert the map element
and the object. A thrown `runtime_error` is the returned message; the state
at throw time accompanies it. -/
def placeObjectFortification (st : PlaceObjState) (f : FortificationM)
    (position : Pos) (terrain : Nat) (updateDistance : Bool) :
    Option String × PlaceObjState :=
  if ¬ inTheMap st.mapSize position then
    (some "Position of fort is outside of the map", st)
  else
    let entrance := position + f.elem.entranceOffset
    if ¬ inTheMap st.mapSize entrance then
      (some "Entrance of fort is outside of the map", st)
    else
      let blocked := (f.elem.blockedOffsets.map (fun o => position + o)) ++ [entrance]
      let st1 := markUsedTiles blocked (some terrain) st
      let st2 :=
        if 0 < f.gapMask then freeGapTiles blocked (f.gapTiles position) st1
        else st1
      let st3 :=
        if updateDistance then
          { st2 with nearDist := updateDistances st2.possibleTiles st2.nearDist position }
        else st2
      let st4 := { st3 with roadNodes := entrance :: st3.roadNodes }
      (none, { st4 with
        mapElements := (f.id, position) :: st4.mapElements
        objects := f.id :: st4.objects })

/-- `TemplateZone::placeObject(unique_ptr<Ruin>, position, updateDistance)`:
validate position and entrance, mark footprint and entrance `Used`, update
distances, then insert the map element and the object. -/
def placeObjectRuin (st : PlaceObjState) (r : RuinM) (position : Pos)
    (updateDistance : Bool) : Option String × PlaceObjState :=
  if ¬ inTheMap st.mapSize position then
    (some "Position of ruin is outside of the map", st)
  else
    let entrance := position + r.elem.entranceOffset
    if ¬ inTheMap st.mapSize entrance then
      (some "Entrance of ruin is outside of the map", st)
    else
      let blocked := (r.elem.blockedOffsets.map (fun o => position + o)) ++ [entrance]
      let st1 := markUsedTiles blocked none st
      let st2 :=
        if updateDistance then
          { st1 with nearDist := updateDistances st1.possibleTiles st1.nearDist position }
        else st1
      (none, { st2 with
        mapElements := (r.id, position) :: st2.mapElements
        objects := r.id :: st2.objects })

/-! ## C5: TemplateZone::createLoot -/

/-- An item catalog record (`ItemInfo`): id, value, item type (as the enum's
numeral; `ItemType::Valuable` is modelled as 0), and whether the item is
rejected by `noSpecialItem` (modelled from the spec, the predicate's body
being outside the snapshot). Item ids are naturals; 0 models `emptyId`. -/
structure ItemInfo where
  itemId : Nat
  value : Nat
  itemType : Nat
  special : Bool
deriving DecidableEq, Repr

/-- `ItemType::Valuable` in the item-type numbering of this model. -/
def valuableItemType : Nat := 0

/-- A required loot entry (`LootInfo::requiredItems` element): item id and
the `RandomValue` range for its amount. -/
structure RequiredItem where
  itemId : Nat
  amount : Nat × Nat
deriving DecidableEq, Repr

/-- `LootInfo`: required items, allowed item types (empty means all), the
optional total-value range and the optional per-item value range
(`RandomValue`'s boolean conversion is modelled as `Option`). -/
structure LootInfo where
  requiredItems : List RequiredItem
  itemTypes : List Nat
  value : Option (Nat × Nat)
  itemValue : Option (Nat × Nat)

/-- Modelled from the spec: `pickItem(rand, filters)` — a uniformly random
pick among catalog items rejected by no filter, or `none` when every item is
rejected. -/
def pickItemM (catalog : List ItemInfo) (filters : List (ItemInfo → Bool))
    (r : Rng) : Option ItemInfo × Rng :=
  let candidates := catalog.filter (fun i => filters.all (fun f => !(f i)))
  match candidates with
  | [] => (none, r)
  | _ :: _ =>
      let (v, r') := r.next
      (candidates[v % candidates.length]?, r')

/-- One required-item step of `TemplateZone::createLoot`: skip entries with
an empty id, draw the amount from its range, and record the entry when the
drawn amount is positive. -/
def lootRequiredStep (acc : List (Nat × Nat) × Rng) (item : RequiredItem) :
    List (Nat × Nat) × Rng :=
  if item.itemId = 0 then acc
  else
    let (amount, r') := acc.2.pickValue item.amount
    if 0 < amount then (acc.1 ++ [(item.itemId, amount)], r')
    else (acc.1, r')

/-- The required-items phase of `TemplateZone::createLoot`. -/
def createLootRequired (reqs : List RequiredItem) (r : Rng) :
    List (Nat × Nat) × Rng :=
  reqs.foldl lootRequiredStep ([], r)

/-- The reject-filters of one `createLoot` draw, in the source's order:
`noWrongType` (merchants never receive valuables; restrict to the allowed
type set when non-empty), `noWrongValue` (the optional per-item value range,
and never above the remaining value), `noSpecialItem`, and the two forbidden
lists (template and generator settings). -/
def lootFilters (forbTemplate forbSettings : List Nat) (loot : LootInfo)
    (forMerchant : Bool) (remaining : Nat) : List (ItemInfo → Bool) :=
  [fun i =>
      (forMerchant && i.itemType = valuableItemType) ||
        (!loot.itemTypes.isEmpty && !loot.itemTypes.contains i.itemType),
   fun i =>
      (match loot.itemValue with
        | some iv => i.value < iv.1 || iv.2 < i.value
        | none => false) ||
        decide (remaining < i.value),
   fun i => i.special,
   fun i => forbTemplate.contains i.itemId,
   fun i => forbSettings.contains i.itemId]

/-- The drawing loop of `TemplateZone::createLoot`: while the accumulated
value has not passed `desiredValue`, pick an item passing the type, value,
special and forbidden filters; stop when no candidate fits. Fueled because
a zero-value item passing the filters would keep the source loop running
forever. Returns the drawn list (appended to the required items), the
accumulated value of the drawn items (`currentValue`) and the PRNG. -/
def createLootRandom (catalog : List ItemInfo)
    (forbTemplate forbSettings : List Nat) (loot : LootInfo)
    (forMerchant : Bool) (desired : Nat) :
    Nat → Nat → List (Nat × Nat) → Rng → Option (List (Nat × Nat) × Nat × Rng)
  | 0, _, _, _ => none
  | fuel + 1, current, items, r =>
      if current ≤ desired then
        match pickItemM catalog
          (lootFilters forbTemplate forbSettings loot forMerchant
            (desired - current)) r with
        | (none, r') => some (items, current, r')
        | (some item, r') =>
            createLootRandom catalog forbTemplate forbSettings loot forMerchant
              desired fuel (current + item.value)
              (items ++ [(item.itemId, 1)]) r'
      else some (items, current, r)

/-- `TemplateZone::createLoot`: instantiate required items first, then draw
random items to fill `desiredValue = pickValue(loot.value)` (no drawing when
`loot.value` is unset). Returns the item list, the accumulated drawn value,
the desired value, and the PRNG. -/
def createLoot (fuel : Nat) (catalog : List ItemInfo)
    (forbTemplate forbSettings : List Nat) (loot : LootInfo)
    (forMerchant : Bool) (r : Rng) :
    Option (List (Nat × Nat) × Nat × Nat × Rng) :=
  let req := createLootRequired loot.requiredItems r
  match loot.value with
  | none => some (req.1, 0, 0, req.2)
  | some value =>
      let des := req.2.pickValue value
      match createLootRandom catalog forbTemplate forbSettings loot forMerchant
        des.1 fuel 0 req.1 des.2 with
      | none => none
      | some (items, current, r3) => some (items, current, des.1, r3)

/-! ## C3: TemplateZone::connectPath -/

/-- The zone-fixed context of `connectPath`: map size, the calling zone's id
and the per-tile zone ids. -/
structure PathCtx where
  mapSize : Nat
  id : Nat
  zoneId : Pos → Nat

/-- The generator state `connectPath` mutates: occupancy and the zone's
`possibleTiles` (a `std::set`, so duplicate-free). -/
structure PathState where
  occ : Pos → TileType
  possibleTiles : List Pos

/-- Association-list lookup keyed by position; models `std::map` access. -/
def alookup {α : Type} (l : List (Pos × α)) (k : Pos) : Option α :=
  (l.find? (fun e => e.1 = k)).map (fun e => e.2)

/-- Pop the element with the smallest key from the open queue (leftmost on
ties); models the min-priority queue of the A* searches. -/
def popMin {k : Type} [LinearOrder k] :
    List (Pos × k) → Option ((Pos × k) × List (Pos × k))
  | [] => none
  | x :: xs =>
      match popMin xs with
      | none => some (x, [])
      | some (m, rest) =>
          if x.2 ≤ m.2 then some (x, xs) else some (m, x :: rest)

/-- The A* bookkeeping of `connectPath`: closed set, open queue, navigated
parents, and best-known distances. -/
structure SearchState where
  closed : List Pos
  queue : List (Pos × Nat)
  cameFrom : List (Pos × Pos)
  distances : List (Pos × Nat)

/-- The neighbor functor of `connectPath`: skip closed, blocked and
out-of-zone tiles; relax the distance (uniform cost 1), recording the parent
and pushing the neighbor on strict improvement. -/
def connectFunctor (ctx : PathCtx) (st : PathState) (current : Pos)
    (ss : SearchState) (p : Pos) : SearchState :=
  if p ∈ ss.closed then ss
  else if st.occ p = TileType.blocked ∨ ctx.zoneId p ≠ ctx.id then ss
  else
    let dist := (alookup ss.distances current).getD 0 + 1
    let accept :=
      match alookup ss.distances p with
      | none => true
      | some best => decide (dist < best)
    if accept then
      { ss with
        cameFrom := (p, current) :: ss.cameFrom
        queue := ss.queue ++ [(p, dist)]
        distances := (p, dist) :: ss.distances }
    else ss

/-- The backtracking walk of `connectPath`'s success branch: follow the
saved parents from the reached tile until the sentinel parent, collecting
every visited tile (the source included). -/
def backtrackWalk : Nat → List (Pos × Pos) → Pos → List Pos
  | 0, _, b => [b]
  | fuel + 1, cameFrom, b =>
      match alookup cameFrom b with
      | some parent =>
          if parent.isValid then b :: backtrackWalk fuel cameFrom parent
          else [b]
      | none => [b]

/-- Outcome of the `connectPath` search loop: the backtracked path when a
`Free` tile was popped, or the closed set when the open queue was
exhausted. -/
inductive SearchOutcome where
  | reachedFree (path : List Pos)
  | exhausted (closed : List Pos)

/-- The search loop of `connectPath` (fueled): pop the cheapest open node,
close it, stop on a `Free` tile, otherwise relax its straight (or all 8)
neighbors. -/
def connectSearch (ctx : PathCtx) (st : PathState) (onlyStraight : Bool) :
    Nat → SearchState → Option SearchOutcome
  | 0, _ => none
  | fuel + 1, ss =>
      match popMin ss.queue with
      | none => some (SearchOutcome.exhausted ss.closed)
      | some ((current, _), queue') =>
          let closed' := current :: ss.closed
          if st.occ current = TileType.free then
            some (SearchOutcome.reachedFree
              (backtrackWalk (ss.cameFrom.length + 1) ss.cameFrom current))
          else
            let nb :=
              if onlyStraight then directNeighbors ctx.mapSize current
              else neighbors ctx.mapSize current
            connectSearch ctx st onlyStraight fuel
              (nb.foldl (connectFunctor ctx st current)
                { ss with closed := closed', queue := queue' })

/-- One tile of the sealed-off cleanup of `connectPath`'s failure branch: a
`Possible` closed tile becomes `Blocked`, and the tile is erased from the
zone's `possibleTiles` regardless of its state. -/
def sealStep (s : PathState) (tile : Pos) : PathState :=
  let s1 :=
    if s.occ tile = TileType.possible then
      { s with occ := fun t => if t = tile then TileType.blocked else s.occ t }
    else s
  { s1 with possibleTiles := s1.possibleTiles.erase tile }

/-- The sealed-off cleanup of `connectPath`'s failure branch. -/
def sealOff (closed : List Pos) (st : PathState) : PathState :=
  closed.foldl sealStep st

/-- The success branch of `connectPath`: paint every backtracked tile
`Free`. -/
def paintFree (path : List Pos) (st : PathState) : PathState :=
  path.foldl
    (fun s tile =>
      { s with occ := fun t => if t = tile then TileType.free else s.occ t })
    st

/-- The initial search state of `connectPath`: the source on the open queue
at distance 0, with the sentinel parent. -/
def initialSearch (source : Pos) : SearchState :=
  { closed := []
    queue := [(source, 0)]
    cameFrom := [(source, ⟨-1, -1⟩)]
    distances := [(source, 0)] }

/-- `TemplateZone::connectPath(source, onlyStraight)`: run the A* search for
the first `Free` tile; on success paint the backtracked path `Free` and
return true; on exhaustion seal off the closed set and return false. -/
def connectPath (ctx : PathCtx) (source : Pos) (onlyStraight : Bool)
    (st : PathState) (fuel : Nat) : Option (Bool × PathState) :=
  match connectSearch ctx st onlyStraight fuel (initialSearch source) with
  | none => none
  | some (SearchOutcome.exhausted closed) => some (false, sealOff closed st)
  | some (SearchOutcome.reachedFree path) => some (true, paintFree path st)

/-! ## C4: TemplateZone::createRoad and connectRoads -/

/-- The context read by `createRoad`: map geometry, the calling zone, per-tile
water and visitability flags, and `Map::canMoveBetween` (its body lives in
map.cpp outside the snapshot, so it is kept abstract; the spec describes it
as the non-traversable-corner test). -/
structure RoadCtx where
  mapSize : Nat
  id : Nat
  zoneId : Pos → Nat
  water : Pos → Bool
  visitable : Pos → Bool
  canMoveBetween : Pos → Pos → Bool

/-- A recorded road (`RoadInfo`): endpoints and the backtracked path in push
order (the reached node first), each node with its path cost. Costs are
32-bit floats accumulating steps of 1 and 2.1; they are multiples of 0.1,
modelled exactly as naturals counting tenths (a straight step costs 10, a
diagonal one 21). -/
structure RoadInfo where
  source : Pos
  destination : Pos
  path : List (Pos × Nat)
deriving DecidableEq

/-- The state mutated by the road builder: occupancy (read for `isFree`),
per-tile road flags, and the zone's recorded roads. -/
structure RoadState where
  occ : Pos → TileType
  roadFlags : Pos → Bool
  roads : List RoadInfo

/-- The A* bookkeeping of `createRoad`. -/
structure RoadSearch where
  closed : List Pos
  queue : List (Pos × Nat)
  cameFrom : List (Pos × Pos)
  distances : List (Pos × Nat)

/-- The neighbor functor of `createRoad`: skip closed and non-improving
tiles, reject water, then allow the transition when both endpoints are
`Free`, or either tile is visitable and the corner is traversable, or the
neighbor is the final destination; stay within the zone except for the
destination. Records the parent, the distance, pushes the node and reports
that a neighbor was found. -/
def roadFunctor (ctx : RoadCtx) (st : RoadState) (dest current : Pos)
    (nodeKey movementCost : Nat) (ss : RoadSearch × Bool) (p : Pos) :
    RoadSearch × Bool :=
  if p ∈ ss.1.closed then ss
  else
    let distance := nodeKey + movementCost
    let noImprove :=
      match alookup ss.1.distances p with
      | some best => decide (best ≤ distance)
      | none => false
    if noImprove then ss
    else if ctx.water p then ss
    else
      let canMove := ctx.canMoveBetween current p
      let emptyPath := st.occ p = TileType.free ∧ st.occ current = TileType.free
      let visitable := (ctx.visitable p ∨ ctx.visitable current) ∧ canMove
      let completed := p = dest
      if (emptyPath ∨ visitable ∨ completed) ∧
          (ctx.zoneId p = ctx.id ∨ completed) then
        ({ ss.1 with
            cameFrom := (p, current) :: ss.1.cameFrom
            distances := (p, distance) :: ss.1.distances
            queue := ss.1.queue ++ [(p, distance)] }, true)
      else ss

/-- Outcome of the `createRoad` search loop. -/
inductive RoadOutcome where
  | found (current : Pos) (cameFrom : List (Pos × Pos))
      (distances : List (Pos × Nat))
  | failed

/-- The search loop of `createRoad` (fueled): pop the cheapest node, stop
when it is the destination or already a road; otherwise relax the straight
neighbors at cost 1 and, only when none was pushed, the diagonal neighbors
at cost 2.1. -/
def roadSearchLoop (ctx : RoadCtx) (st : RoadState) (dest : Pos) :
    Nat → RoadSearch → Option RoadOutcome
  | 0, _ => none
  | fuel + 1, ss =>
      match popMin ss.queue with
      | none => some RoadOutcome.failed
      | some ((current, key), queue') =>
          let closed' := current :: ss.closed
          if current = dest ∨ st.roadFlags current then
            some (RoadOutcome.found current ss.cameFrom ss.distances)
          else
            let base : RoadSearch := { ss with closed := closed', queue := queue' }
            let straight := (directNeighbors ctx.mapSize current).foldl
              (roadFunctor ctx st dest current key 10) (base, false)
            let after :=
              if straight.2 then straight.1
              else ((diagonalNeighbors ctx.mapSize current).foldl
                (roadFunctor ctx st dest current key 21) (straight.1, false)).1
            roadSearchLoop ctx st dest fuel after

/-- The backtracking walk of `createRoad`: push each node with its stored
distance while its saved parent is valid (the source, whose parent is the
sentinel, is not pushed). -/
def roadBacktrack : Nat → List (Pos × Pos) → List (Pos × Nat) → Pos →
    List (Pos × Nat)
  | 0, _, _, _ => []
  | fuel + 1, cameFrom, distances, b =>
      match alookup cameFrom b with
      | some parent =>
          if parent.isValid then
            (b, (alookup distances b).getD 0) ::
              roadBacktrack fuel cameFrom distances parent
          else []
      | none => []

/-- `TemplateZone::createRoad(source, destination)`: clear the road flag
under the source, run the straight-preferring A*; on success mark the
backtracked path as roads and record the `RoadInfo`. -/
def createRoad (ctx : RoadCtx) (source destination : Pos) (st : RoadState)
    (fuel : Nat) : Option (Bool × RoadState) :=
  let st0 : RoadState :=
    { st with roadFlags := fun p => if p = source then false else st.roadFlags p }
  match roadSearchLoop ctx st0 destination fuel
      { closed := []
        queue := [(source, 0)]
        cameFrom := [(source, ⟨-1, -1⟩)]
        distances := [(source, 0)] } with
  | none => none
  | some RoadOutcome.failed => some (false, st0)
  | some (RoadOutcome.found current cameFrom distances) =>
      let path := roadBacktrack (cameFrom.length + 1) cameFrom distances current
      some (true,
        { st0 with
          roadFlags := fun p =>
            if (path.map (fun e => e.1)).contains p then true else st0.roadFlags p
          roads := st0.roads ++ [⟨source, destination, path⟩] })

/-- The closest-node scan of `connectRoads` (`std::min_element` with the
squared-distance comparator; keeps the earlier element on ties). -/
def closestTo (node : Pos) (l : List Pos) : Option Pos :=
  l.foldl
    (fun best p =>
      match best with
      | none => some p
      | some b =>
          if node.distanceSquared p < node.distanceSquared b then some p
          else some b)
    none

/-- The endpoint selection of one `connectRoads` iteration: connect with the
closest processed node, else with the closest remaining node, else stop. -/
def chooseCross (node : Pos) (rest processed : List Pos) : Option Pos :=
  if processed ≠ [] then closestTo node processed
  else if rest ≠ [] then closestTo node rest
  else none

/-- `TemplateZone::connectRoads`: spanning-tree over the zone's road nodes;
repeatedly take the first remaining node, connect it to the closest
processed node (or the closest remaining one initially) via `createRoad`,
then mark endpoints processed. -/
def connectRoads (ctx : RoadCtx) (st : RoadState) (fuel : Nat) :
    List Pos → List Pos → Option RoadState
  | [], _ => some st
  | node :: rest, processed =>
      match chooseCross node rest processed with
      | none => some st
      | some crossNode =>
          match createRoad ctx node crossNode st fuel with
          | none => none
          | some (ok, st') =>
              if ok then
                connectRoads ctx st' fuel (rest.erase crossNode)
                  (node :: crossNode :: processed)
              else
                connectRoads ctx st' fuel rest (node :: processed)
termination_by nodes _ => nodes.length
decreasing_by
  · have h := List.length_erase_le crossNode rest
    simp only [List.length_cons]
    omega
  · simp only [List.length_cons]
    omega

/-- A straight (non-diagonal) unit step: the tiles differ in exactly one
coordinate by one. -/
def isStraightStep (a b : Pos) : Prop :=
  (a.x - b.x).natAbs + (a.y - b.y).natAbs = 1

instance (a b : Pos) : Decidable (isStraightStep a b) :=
  inferInstanceAs (Decidable ((a.x - b.x).natAbs + (a.y - b.y).natAbs = 1))

/-- A king step, straight or diagonal, between in-map tiles: the relation
actually guaranteed between consecutive tiles of a recorded road path. -/
def isRoadStep (size : Nat) (a b : Pos) : Prop :=
  a ∈ directNeighbors size b ∨ a ∈ diagonalNeighbors size b

/-- The cameFrom invariant of the road search: every navigated node with a
valid parent was pushed by the functor, hence is a straight or diagonal
in-map neighbor of its parent and is not water. -/
def goodParent (ctx : RoadCtx) (e : Pos × Pos) : Prop :=
  e.2.isValid = true → isRoadStep ctx.mapSize e.1 e.2 ∧ ctx.water e.1 = false

/-! ## C1: TemplateZone::createStack -/

/-- Attack reach (`ReachType`): adjacent melee or one of the ranged
reaches. -/
inductive ReachType where
  | adjacent
  | allRanks
  | anyRank
deriving DecidableEq, Repr

/-- A unit catalog record (`UnitInfo`): id, experience value, leadership,
big flag, attack reach, subrace, and (modelled from the spec, `isSupport`'s
body being outside the snapshot) whether the unit counts as a support
unit. -/
structure UnitInfo where
  unitId : Nat
  value : Nat
  leadership : Nat
  big : Bool
  reach : ReachType
  subrace : Nat
  support : Bool
  hp : Nat
  level : Nat
  move : Nat
deriving DecidableEq, Repr

/-- The game catalogs and limits reached through `getGameInfo()` and the
generator settings: minimum leader and soldier values, the leader and
soldier catalogs, and the two forbidden-unit lists (map template settings
and generator settings). -/
structure GameInfo where
  minLeaderValue : Nat
  minSoldierValue : Nat
  leaders : List UnitInfo
  units : List UnitInfo
  forbiddenUnitsTemplate : List Nat
  forbiddenUnitsSettings : List Nat

/-- A stack specification (`GroupInfo`): the optional value range, allowed
subraces (empty means all), explicit leader ids, and the loot
specification. -/
structure GroupInfo where
  value : Option (Nat × Nat)
  subraceTypes : List Nat
  leaderIds : List Nat
  loot : LootInfo

/-- Modelled from the spec: `pickLeader` / `pickUnit` — a uniformly random
pick among catalog units rejected by no filter. -/
def pickUnitFrom (catalog : List UnitInfo) (filters : List (UnitInfo → Bool))
    (r : Rng) : Option UnitInfo × Rng :=
  let candidates := catalog.filter (fun u => filters.all (fun f => !(f u)))
  match candidates with
  | [] => (none, r)
  | _ :: _ =>
      let (v, r') := r.next
      (candidates[v % candidates.length]?, r')

/-- Modelled from the spec: `constrainedSum(count, value, rand)` splits
`value` into `count` positive integers summing to `value` (sequential
uniform draws with remainder clamp, the algorithm the spec's design notes
suggest). -/
def constrainedSumGo : Nat → Nat → Rng → List Nat × Rng
  | 0, _, r => ([], r)
  | 1, v, r => ([v], r)
  | n + 2, v, r =>
      let (x, r') := r.nextInteger 1 (v - (n + 1))
      let (rest, r'') := constrainedSumGo (n + 1) (v - x) r'
      (x :: rest, r'')

/-- Modelled from the spec: see `constrainedSumGo`. -/
def constrainedSum (count value : Nat) (r : Rng) : List Nat × Rng :=
  constrainedSumGo count value r

/-- The template-settings forbidden filter (`noForbiddenOnTemplate`). -/
def noForbUnitT (gi : GameInfo) (u : UnitInfo) : Bool :=
  gi.forbiddenUnitsTemplate.contains u.unitId

/-- The generator-settings forbidden filter (`noForbiddenUnit`, body outside
the snapshot; modelled from the spec as a settings forbidden list). -/
def noForbUnitS (gi : GameInfo) (u : UnitInfo) : Bool :=
  gi.forbiddenUnitsSettings.contains u.unitId

/-- The value filter used by the pick loops: reject units below
`coeffPct`% of the target value or above the target value. The source
compares against `value * minValueCoeff` in 32-bit floats; the coefficients
are multiples of 0.05, so the comparison is modelled exactly at scale
100. -/
def noWrongValuePct (coeffPct value : Nat) (u : UnitInfo) : Bool :=
  decide (u.value * 100 < value * coeffPct) || decide (value < u.value)

/-- One sweep of `TemplateZone::createStackLeader` over the unit values:
accumulate unused value, pick the first leader within the value window
(subrace-allowed, big only when fewer than 6 values). Returns the leader,
the unused value and how many values were consumed. -/
def leaderSweep (gi : GameInfo) (allowed : List Nat) (canBig : Bool)
    (coeffPct : Nat) : List Nat → Nat → Nat → Rng →
    Option (UnitInfo × Nat × Nat) × Rng
  | [], _, _, r => (none, r)
  | v :: rest, idx, unused, r =>
      let value := v + unused
      let filter := fun (u : UnitInfo) =>
        (!allowed.isEmpty && !allowed.contains u.subrace) ||
          (!canBig && u.big) || noWrongValuePct coeffPct value u
      match pickUnitFrom gi.leaders [filter, noForbUnitT gi, noForbUnitS gi] r with
      | (some info, r') => (some (info, value - info.value, idx + 1), r')
      | (none, r') => leaderSweep gi allowed canBig coeffPct rest (idx + 1) value r'

/-- The retry loop of `TemplateZone::createStackLeader`: up to 5 sweeps with
`minValueCoeff` starting at 0.65 and dropping 0.15 per failed sweep; then
fall back to the weakest leader (value = minimum leader value) with unused
value 0 and no values consumed. -/
def createStackLeaderLoop (gi : GameInfo) (allowed : List Nat)
    (unitValues : List Nat) : Nat → Nat → Rng →
    Option (UnitInfo × Nat × Nat) × Rng
  | 0, _, r =>
      match gi.leaders.find? (fun u => u.value = gi.minLeaderValue) with
      | some info => (some (info, 0, 0), r)
      | none => (none, r)
  | att + 1, coeffPct, r =>
      match leaderSweep gi allowed (decide (unitValues.length < 6)) coeffPct
        unitValues 0 0 r with
      | (some res, r') => (some res, r')
      | (none, r') =>
          createStackLeaderLoop gi allowed unitValues att (coeffPct - 15) r'

/-- The value-consumption loop of `TemplateZone::pickStackLeader`: add unit
values one by one (skipping the break at index 0 for a big leader), stopping
once the accumulated unused value exceeds the leader's value. -/
def pickStackLeaderConsume (leaderValue : Nat) (big : Bool) :
    List Nat → Nat → Nat → Nat → Nat × Nat
  | [], _, unused, consumed => (unused, consumed)
  | v :: rest, i, unused, _ =>
      let unused' := unused + v
      let consumed' := i + 1
      if i = 0 ∧ big then
        pickStackLeaderConsume leaderValue big rest (i + 1) unused' consumed'
      else if leaderValue < unused' then (unused', consumed')
      else pickStackLeaderConsume leaderValue big rest (i + 1) unused' consumed'

/-- `TemplateZone::pickStackLeader`: pick among the explicitly listed leader
ids, then consume unit values until they cover the leader's value; the
leftover becomes the unused value (clamped at 0). -/
def pickStackLeader (gi : GameInfo) (leaderIds : List Nat)
    (unitValues : List Nat) (r : Rng) : Option (UnitInfo × Nat × Nat) × Rng :=
  let leadersRequired := fun (u : UnitInfo) => !leaderIds.contains u.unitId
  match pickUnitFrom gi.leaders [leadersRequired] r with
  | (none, r') => (none, r')
  | (some info, r') =>
      let (unused, consumed) :=
        pickStackLeaderConsume info.value info.big unitValues 0 0 0
      let unusedValue := if unused < info.value then 0 else unused - info.value
      (some (info, unusedValue, consumed), r')

/-- Modelled from the spec: the six-slot `Group` container. Slots `0..5`
hold unit ids; a big unit references both slots of its column pair
`(2k, 2k+1)`; at most one leader per group. -/
structure GroupM where
  slots : List (Option Nat)
  leader : Option Nat
deriving DecidableEq, Repr

/-- The empty group. -/
def GroupM.empty : GroupM := ⟨List.replicate 6 none, none⟩

/-- The other slot of a position's column pair. -/
def pairSlot (pos : Nat) : Nat := if pos % 2 = 0 then pos + 1 else pos - 1

/-- Modelled from the spec: `Group::addUnit(unit, position, isBig)` —
succeeds when the position (and, for a big unit, its pair slot) is free;
a big unit occupies both slots of its column. -/
def GroupM.addUnit (g : GroupM) (id : Nat) (pos : Nat) (big : Bool) :
    Option GroupM :=
  if 6 ≤ pos then none
  else if (g.slots.getD pos none).isSome then none
  else if big then
    if (g.slots.getD (pairSlot pos) none).isSome then none
    else some { g with slots := (g.slots.set pos (some id)).set (pairSlot pos) (some id) }
  else some { g with slots := g.slots.set pos (some id) }

/-- Modelled from the spec: `Group::addLeader` — `addUnit` plus recording
the single leader; fails when a leader is already present. -/
def GroupM.addLeader (g : GroupM) (id : Nat) (pos : Nat) (big : Bool) :
    Option GroupM :=
  if g.leader.isSome then none
  else (g.addUnit id pos big).map (fun g' => { g' with leader := some id })

/-- Number of occupied slots of a group. -/
def GroupM.occupiedCount (g : GroupM) : Nat :=
  g.slots.countP (fun s => s.isSome)

/-- Number of slots occupied by soldier (non-leader) units; a big soldier's
slot pair counts as 2. -/
def GroupM.soldierSlotCount (g : GroupM) : Nat :=
  g.slots.countP (fun s => s.isSome && s ≠ g.leader)

/-- One pick of `TemplateZone::createGroup`'s soldier loop, shared filter
shape with `tightenGroup`: reject disallowed subraces, big units that do
not fit, and reach/line mismatches (ranged units on the front line, melee
units on the back line) unless a big unit can be placed. -/
def groupPickFilter (allowed : List Nat) (canPlaceBig frontline : Bool)
    (u : UnitInfo) : Bool :=
  (!allowed.isEmpty && !allowed.contains u.subrace) ||
    (!canPlaceBig && u.big) ||
    (!canPlaceBig &&
      ((frontline && decide (u.reach ≠ ReachType.adjacent)) ||
        (!frontline && decide (u.reach = ReachType.adjacent))))

/-- `TemplateZone::createGroup`: walk the remaining unit values, pick a
random free slot, try a soldier within the value window, place it (moving a
small unit to the better line when the pair slot is free), and roll unused
value over on failure. `totalLen` is the length of the whole value vector
(the source compares `positions.size() > unitValues.size()` against it). -/
def createGroup (gi : GameInfo) (allowed : List Nat) (totalLen : Nat) :
    List Nat → Nat → List Nat → List (Option UnitInfo) → Rng →
    Nat × List Nat × List (Option UnitInfo) × Rng
  | [], unused, positions, soldiers, r => (unused, positions, soldiers, r)
  | v :: rest, unused, positions, soldiers, r =>
      if positions.isEmpty then (unused, positions, soldiers, r)
      else
        let value := v + unused
        let coeffPct := 95 - positions.length * 5
        let (idx, r1) := r.next
        let position := positions.getD (idx % positions.length) 0
        let frontline := position % 2 = 0
        let secondPosition := if frontline then position + 1 else position - 1
        let canPlaceBig := positions.contains position &&
          positions.contains secondPosition &&
          decide (totalLen < positions.length)
        match pickUnitFrom gi.units
          [groupPickFilter allowed canPlaceBig frontline,
            noWrongValuePct coeffPct value, noForbUnitT gi, noForbUnitS gi] r1 with
        | (some info, r2) =>
            if info.big then
              createGroup gi allowed totalLen rest (value - info.value)
                ((positions.erase position).erase secondPosition)
                ((soldiers.set position (some info)).set secondPosition (some info)) r2
            else
              let position' :=
                if canPlaceBig && frontline &&
                    decide (info.reach ≠ ReachType.adjacent) then secondPosition
                else if canPlaceBig && !frontline &&
                    decide (info.reach = ReachType.adjacent) then secondPosition
                else position
              createGroup gi allowed totalLen rest (value - info.value)
                (positions.erase position')
                (soldiers.set position' (some info)) r2
        | (none, r2) =>
            createGroup gi allowed totalLen rest (unused + v) positions soldiers r2

/-- `TemplateZone::tightenGroup` (fueled; the source's loop is bounded by
200 consecutive failures and 6 placements, so any fuel above 1407 is
never exhausted in practice): while unused value covers another soldier and
slots remain, retry picks with a gradually relaxed value window. -/
def tightenGroup (gi : GameInfo) (allowed : List Nat) :
    Nat → Nat → Nat → Nat → List Nat → List (Option UnitInfo) → Rng →
    Option (Nat × List Nat × List (Option UnitInfo) × Rng)
  | 0, _, _, _, _, _, _ => none
  | fuel + 1, failed, coeffPct, unused, positions, soldiers, r =>
      if failed < 200 ∧ positions ≠ [] ∧ gi.minSoldierValue ≤ unused then
        let value := unused
        let (idx, r1) := r.next
        let position := positions.getD (idx % positions.length) 0
        let frontline := position % 2 = 0
        let secondPosition := if frontline then position + 1 else position - 1
        let canPlaceBig := positions.contains position &&
          positions.contains secondPosition
        match pickUnitFrom gi.units
          [groupPickFilter allowed canPlaceBig frontline,
            noWrongValuePct coeffPct value, noForbUnitT gi, noForbUnitS gi] r1 with
        | (some info, r2) =>
            if info.big then
              let positions' := (positions.erase position).erase secondPosition
              tightenGroup gi allowed fuel 0 (100 - positions'.length * 5)
                (value - info.value) positions'
                ((soldiers.set position (some info)).set secondPosition (some info)) r2
            else
              let position' :=
                if canPlaceBig && frontline &&
                    decide (info.reach ≠ ReachType.adjacent) then secondPosition
                else if canPlaceBig && !frontline &&
                    decide (info.reach = ReachType.adjacent) then secondPosition
                else position
              let positions' := positions.erase position'
              tightenGroup gi allowed fuel 0 (100 - positions'.length * 5)
                (value - info.value) positions'
                (soldiers.set position' (some info)) r2
        | (none, r2) =>
            tightenGroup gi allowed fuel (failed + 1) (coeffPct - 5) unused
              positions soldiers r2
      else some (unused, positions, soldiers, r)

/-- `TemplateZone::createGroupUnits`: walk the soldier array, minting a unit
id for every entry and adding it to the group at its position, skipping the
second slot of a big unit. The walk takes at most 6 steps. -/
def cguGo (soldiers : List (Option UnitInfo)) :
    Nat → Nat → GroupM → Nat → GroupM × Nat
  | 0, _, g, nid => (g, nid)
  | fuel + 1, pos, g, nid =>
      if 6 ≤ pos then (g, nid)
      else
        match soldiers.getD pos none with
        | none => cguGo soldiers fuel (pos + 1) g nid
        | some info =>
            let g' := (g.addUnit nid pos info.big).getD g
            cguGo soldiers fuel (pos + (if info.big then 2 else 1)) g' (nid + 1)

/-- The leadership requirement contributed by the soldier array, computed by
the skip-traversal of `createStack`: 1 per unit plus 1 more for a big unit
(whose second slot is skipped). -/
def soldierReqGo (soldiers : List (Option UnitInfo)) : Nat → Nat → Nat
  | 0, _ => 0
  | fuel + 1, pos =>
      if 6 ≤ pos then 0
      else
        match soldiers.getD pos none with
        | none => soldierReqGo soldiers fuel (pos + 1)
        | some info =>
            (if info.big then 2 else 1) +
              soldierReqGo soldiers fuel (pos + (if info.big then 2 else 1))

/-- The id of the `+1 Leadership` modifier item (`G000UM9031`), as a
numeral. -/
def leadershipModifierId : Nat := 9031

/-- The stack `createStack` produces, with the fields the claims inspect:
the group, the leader's catalog record and unit id, the leadership modifiers
attached to the leader, the inventory item ids, and the rolled facing. -/
structure StackOut where
  group : GroupM
  leaderInfo : UnitInfo
  leaderUnitId : Nat
  leaderModifiers : List Nat
  inventory : List Nat
  facing : Nat
deriving Repr

/-- The stack-construction tail of `createStack`: the overload creating the
stack and its units (`addLeader` asserted by the source, `createGroupUnits`),
then the leadership fix-up — add `+1 Leadership` modifiers until the leader
supports the produced group count. -/
def buildStack (leaderInfo : UnitInfo) (leaderPosition : Nat)
    (soldiers : List (Option UnitInfo)) (facing : Nat)
    (inventory : List Nat) : StackOut :=
  let g1 := (GroupM.empty.addLeader 0 leaderPosition leaderInfo.big).getD
    GroupM.empty
  let g2 := (cguGo soldiers 6 0 g1 1).1
  let leadershipRequired :=
    (if leaderInfo.big then 2 else 1) + soldierReqGo soldiers 6 0
  let diff := leadershipRequired - leaderInfo.leadership
  { group := g2
    leaderInfo := leaderInfo
    leaderUnitId := 0
    leaderModifiers := List.replicate diff leadershipModifierId
    inventory := inventory
    facing := facing }

/-- The result of `createStack`: `nullptr` when the spec has no value, a
thrown error, or the produced stack. -/
inductive StackResult where
  | noValue
  | error (msg : String)
  | ok (stack : StackOut)

/-- `TemplateZone::createStack(stackInfo, neutralOwner)`: roll the stack
strength and the number of soldiers, split the strength by constrained sum,
pick the leader (explicit ids first, else the value-window loop), place the
leader (big at the front pair, support and ranged at back-center, melee at
front-center), create soldiers, tighten, build the stack, fix leadership,
and attach the generated loot. A draw is consumed for the leader's random
name only for neutral owners (modelled from the spec; the text helpers are
outside the snapshot). -/
def createStack (gi : GameInfo) (itemCatalog : List ItemInfo)
    (forbItemsT forbItemsS : List Nat) (stackInfo : GroupInfo)
    (neutralOwner : Bool) (tightenFuel lootFuel : Nat) (r : Rng) :
    Option (StackResult × Rng) :=
  match stackInfo.value with
  | none => some (StackResult.noValue, r)
  | some stackValue =>
      let (strength, r1) := r.pickValue stackValue
      let soldiersStrength := strength - gi.minLeaderValue
      let maxUnitsPossible := min 5 (soldiersStrength / gi.minSoldierValue)
      let (soldiersTotal, r2) := r1.nextInteger 0 maxUnitsPossible
      let unitsTotal := soldiersTotal + 1
      let (unitValues, r3) := constrainedSum unitsTotal strength r2
      let (pick1, r4) :=
        if !stackInfo.leaderIds.isEmpty then
          pickStackLeader gi stackInfo.leaderIds unitValues r3
        else (none, r3)
      let (pick2, r5) :=
        match pick1 with
        | some res => (some res, r4)
        | none => createStackLeaderLoop gi stackInfo.subraceTypes unitValues 5 65 r4
      match pick2 with
      | none => some (StackResult.error "Could not pick stack leader", r5)
      | some (leaderInfo, unused0, consumed) =>
          let allPos : List Nat := [0, 1, 2, 3, 4, 5]
          let lp :=
            if leaderInfo.big then (2, (allPos.erase 2).erase 3)
            else if leaderInfo.support then (3, allPos.erase 3)
            else if leaderInfo.reach ≠ ReachType.adjacent then (3, allPos.erase 3)
            else (2, allPos.erase 2)
          let soldiers0 : List (Option UnitInfo) := List.replicate 6 none
          let afterGroup :=
            if consumed < unitValues.length then
              createGroup gi stackInfo.subraceTypes
                (unitValues.drop consumed).length (unitValues.drop consumed)
                unused0 lp.2 soldiers0 r5
            else (unused0, lp.2, soldiers0, r5)
          match tightenGroup gi stackInfo.subraceTypes tightenFuel 0
            (100 - afterGroup.2.1.length * 5) afterGroup.1 afterGroup.2.1
            afterGroup.2.2.1 afterGroup.2.2.2 with
          | none => none
          | some (_unused2, _positions2, soldiers2, r7) =>
              let (facing, r8) := r7.nextInteger 0 7
              let r9 := if neutralOwner then (r8.next).2 else r8
              match createLoot lootFuel itemCatalog forbItemsT forbItemsS
                stackInfo.loot false r9 with
              | none => none
              | some (items, _cur, _des, r10) =>
                  let inventory :=
                    items.flatMap (fun e => List.replicate e.2 e.1)
                  some (StackResult.ok
                    (buildStack leaderInfo lp.1 soldiers2 facing inventory), r10)

/-- A one-leader demo catalog: minimum leader value 50, minimum soldier
value 10, a single adjacent-reach leader of value 50 and leadership 1. -/
def stackDemoGame : GameInfo :=
  { minLeaderValue := 50, minSoldierValue := 10
    leaders := [⟨100, 50, 1, false, ReachType.adjacent, 1, false, 10, 1, 5⟩]
    units := []
    forbiddenUnitsTemplate := []
    forbiddenUnitsSettings := [] }

/-- A demo stack spec of value exactly 50 with no constraints and no loot. -/
def stackDemoInfo : GroupInfo := ⟨some (50, 50), [], [], ⟨[], [], none, none⟩⟩

/-- The stack the demo run produces: the lone leader at front-center. -/
def stackDemoOut : StackOut :=
  { group := ⟨[none, none, some 0, none, none, none], some 0⟩
    leaderInfo := ⟨100, 50, 1, false, ReachType.adjacent, 1, false, 10, 1, 5⟩
    leaderUnitId := 0
    leaderModifiers := []
    inventory := []
    facing := 0 }

/-- A concrete 3×3 road-building scenario: the four edge-center tiles are
water, everything is one zone, corners are traversable. Forces the A* into
its diagonal fallback. -/
def roadDemoCtx : RoadCtx :=
  { mapSize := 3
    id := 1
    zoneId := fun _ => 1
    water := fun p =>
      decide (p = ⟨1, 0⟩ ∨ p = ⟨0, 1⟩ ∨ p = ⟨2, 1⟩ ∨ p = ⟨1, 2⟩)
    visitable := fun _ => false
    canMoveBetween := fun _ _ => true }

/-- The state for the demo scenario: `(0,0)` and `(1,1)` are carved `Free`,
the rest is `Possible`; no roads yet. -/
def roadDemoState : RoadState :=
  { occ := fun p =>
      if p = ⟨0, 0⟩ ∨ p = ⟨1, 1⟩ then TileType.free else TileType.possible
    roadFlags := fun _ => false
    roads := [] }

/-! # Theorems -/

/-! ## C10 -/

theorem markUsedTiles_occ (tiles : List Pos) (paint : Option Nat)
    (st : PlaceObjState) (t : Pos) :
    (markUsedTiles tiles paint st).occ t =
      if t ∈ tiles then TileType.used else st.occ t := by
  induction tiles generalizing st with
  | nil => simp [markUsedTiles]
  | cons a rest ih =>
      have hstep :
          (markUsedTiles (a :: rest) paint st) =
            markUsedTiles rest paint
              (match paint with
                | none =>
                    { st with occ := fun x =>
                        if x = a then TileType.used else st.occ x }
                | some terrain =>
                    { st with
                      occ := fun x => if x = a then TileType.used else st.occ x
                      terrain := fun x =>
                        if x = a then setTerrainGround terrain GroundType.plain
                        else st.terrain x }) := by
        cases paint <;> rfl
      rw [hstep]
      cases paint with
      | none =>
          rw [ih]
          by_cases htr : t ∈ rest
          · simp [htr]
          · by_cases hta : t = a
            · subst hta; simp [htr]
            · simp [htr, hta]
      | some terrain =>
          rw [ih]
          by_cases htr : t ∈ rest
          · simp [htr]
          · by_cases hta : t = a
            · subst hta; simp [htr]
            · simp [htr, hta]

theorem markUsedTiles_fields (tiles : List Pos) (paint : Option Nat)
    (st : PlaceObjState) :
    (markUsedTiles tiles paint st).mapSize = st.mapSize ∧
    (markUsedTiles tiles paint st).mapElements = st.mapElements ∧
    (markUsedTiles tiles paint st).objects = st.objects ∧
    (markUsedTiles tiles paint st).roadNodes = st.roadNodes ∧
    (markUsedTiles tiles paint st).possibleTiles = st.possibleTiles ∧
    (markUsedTiles tiles paint st).nearDist = st.nearDist := by
  induction tiles generalizing st with
  | nil => exact ⟨rfl, rfl, rfl, rfl, rfl, rfl⟩
  | cons a rest ih =>
      cases paint with
      | none => exact ih _
      | some terrain => exact ih _

theorem freeGapStep_occ_mem (blocked : List Pos) (st : PlaceObjState)
    (a t : Pos) (ht : t ∈ blocked) :
    (freeGapStep blocked st a).occ t = st.occ t := by
  unfold freeGapStep
  by_cases hb : a ∈ blocked
  · rw [if_pos hb]
  · rw [if_neg hb]
    by_cases hm : ¬ inTheMap st.mapSize a
    · rw [if_pos hm]
    · rw [if_neg hm]
      have hta : t ≠ a := fun he => hb (he ▸ ht)
      simp [hta]

theorem freeGapTiles_occ_mem (blocked tiles : List Pos) (st : PlaceObjState)
    (t : Pos) (ht : t ∈ blocked) :
    (freeGapTiles blocked tiles st).occ t = st.occ t := by
  induction tiles generalizing st with
  | nil => rfl
  | cons a rest ih =>
      show (freeGapTiles blocked rest (freeGapStep blocked st a)).occ t = _
      rw [ih (freeGapStep blocked st a), freeGapStep_occ_mem blocked st a t ht]

theorem freeGapStep_fields (blocked : List Pos) (st : PlaceObjState) (a : Pos) :
    (freeGapStep blocked st a).mapSize = st.mapSize ∧
    (freeGapStep blocked st a).mapElements = st.mapElements ∧
    (freeGapStep blocked st a).objects = st.objects ∧
    (freeGapStep blocked st a).roadNodes = st.roadNodes ∧
    (freeGapStep blocked st a).possibleTiles = st.possibleTiles ∧
    (freeGapStep blocked st a).nearDist = st.nearDist := by
  unfold freeGapStep
  by_cases hb : a ∈ blocked
  · rw [if_pos hb]
    exact ⟨rfl, rfl, rfl, rfl, rfl, rfl⟩
  · rw [if_neg hb]
    by_cases hm : ¬ inTheMap st.mapSize a
    · rw [if_pos hm]
      exact ⟨rfl, rfl, rfl, rfl, rfl, rfl⟩
    · rw [if_neg hm]
      exact ⟨rfl, rfl, rfl, rfl, rfl, rfl⟩

theorem freeGapTiles_fields (blocked tiles : List Pos) (st : PlaceObjState) :
    (freeGapTiles blocked tiles st).mapSize = st.mapSize ∧
    (freeGapTiles blocked tiles st).mapElements = st.mapElements ∧
    (freeGapTiles blocked tiles st).objects = st.objects ∧
    (freeGapTiles blocked tiles st).roadNodes = st.roadNodes ∧
    (freeGapTiles blocked tiles st).possibleTiles = st.possibleTiles ∧
    (freeGapTiles blocked tiles st).nearDist = st.nearDist := by
  induction tiles generalizing st with
  | nil => exact ⟨rfl, rfl, rfl, rfl, rfl, rfl⟩
  | cons a rest ih =>
      have hs := freeGapStep_fields blocked st a
      have hr := ih (freeGapStep blocked st a)
      exact ⟨hr.1.trans hs.1, hr.2.1.trans hs.2.1, hr.2.2.1.trans hs.2.2.1,
        hr.2.2.2.1.trans hs.2.2.2.1, hr.2.2.2.2.1.trans hs.2.2.2.2.1,
        hr.2.2.2.2.2.trans hs.2.2.2.2.2⟩

/-- C10: each `placeObject` variant validates before mutating. For the
Fortification and Ruin overloads (the cited variants): the call fails
exactly when the position or the resulting entrance lies outside the map;
on failure the state (grid occupancy, map-element index, object store, and
everything else) is exactly the input state; on success every footprint and
entrance tile is `Used`, the map element is indexed and the object is
stored — never a partial commit. -/
theorem placeObject_atomic (st : PlaceObjState) (f : FortificationM)
    (r : RuinM) (position : Pos) (terrain : Nat) (ud : Bool) :
    (((placeObjectFortification st f position terrain ud).1.isSome = true ↔
      (inTheMap st.mapSize position = false ∨
        inTheMap st.mapSize (position + f.elem.entranceOffset) = false)) ∧
     ((placeObjectFortification st f position terrain ud).1.isSome = true →
      (placeObjectFortification st f position terrain ud).2 = st) ∧
     ((placeObjectFortification st f position terrain ud).1 = none →
      (∀ t ∈ (f.elem.blockedOffsets.map (fun o => position + o)) ++
          [position + f.elem.entranceOffset],
        (placeObjectFortification st f position terrain ud).2.occ t =
          TileType.used) ∧
      f.id ∈ (placeObjectFortification st f position terrain ud).2.objects ∧
      (f.id, position) ∈
        (placeObjectFortification st f position terrain ud).2.mapElements)) ∧
    (((placeObjectRuin st r position ud).1.isSome = true ↔
      (inTheMap st.mapSize position = false ∨
        inTheMap st.mapSize (position + r.elem.entranceOffset) = false)) ∧
     ((placeObjectRuin st r position ud).1.isSome = true →
      (placeObjectRuin st r position ud).2 = st) ∧
     ((placeObjectRuin st r position ud).1 = none →
      (∀ t ∈ (r.elem.blockedOffsets.map (fun o => position + o)) ++
          [position + r.elem.entranceOffset],
        (placeObjectRuin st r position ud).2.occ t = TileType.used) ∧
      r.id ∈ (placeObjectRuin st r position ud).2.objects ∧
      (r.id, position) ∈ (placeObjectRuin st r position ud).2.mapElements)) := by
  constructor
  · -- Fortification
    by_cases hpos : inTheMap st.mapSize position
    · by_cases hent : inTheMap st.mapSize (position + f.elem.entranceOffset)
      · have hrun :
            placeObjectFortification st f position terrain ud =
              (none,
                let entrance := position + f.elem.entranceOffset
                let blocked :=
                  (f.elem.blockedOffsets.map (fun o => position + o)) ++ [entrance]
                let st1 := markUsedTiles blocked (some terrain) st
                let st2 :=
                  if 0 < f.gapMask then freeGapTiles blocked (f.gapTiles position) st1
                  else st1
                let st3 :=
                  if ud then
                    { st2 with nearDist :=
                        updateDistances st2.possibleTiles st2.nearDist position }
                  else st2
                let st4 := { st3 with roadNodes := entrance :: st3.roadNodes }
                { st4 with
                  mapElements := (f.id, position) :: st4.mapElements
                  objects := f.id :: st4.objects }) := by
          unfold placeObjectFortification
          rw [if_neg (by simpa using hpos), if_neg (by simpa using hent)]
        refine ⟨?_, ?_, ?_⟩
        · rw [hrun]
          simp [hpos, hent]
        · rw [hrun]
          intro hc
          cases hc
        · intro _
          rw [hrun]
          dsimp only
          constructor
          · intro t ht
            -- the later stages do not modify occupancy of used tiles
            have h1 := markUsedTiles_occ
              ((f.elem.blockedOffsets.map (fun o => position + o)) ++
                [position + f.elem.entranceOffset]) (some terrain) st t
            rw [if_pos ht] at h1
            have h2 := freeGapTiles_occ_mem
              ((f.elem.blockedOffsets.map (fun o => position + o)) ++
                [position + f.elem.entranceOffset]) (f.gapTiles position)
              (markUsedTiles
                ((f.elem.blockedOffsets.map (fun o => position + o)) ++
                  [position + f.elem.entranceOffset]) (some terrain) st) t ht
            by_cases hgap : 0 < f.gapMask <;> cases ud <;>
              simp [hgap, h1, h2]
          · constructor
            · exact List.mem_cons_self _ _
            · exact List.mem_cons_self _ _
      · refine ⟨?_, ?_, ?_⟩
        · unfold placeObjectFortification
          rw [if_neg (by simpa using hpos), if_pos (by simpa using hent)]
          simp [hent]
        · unfold placeObjectFortification
          rw [if_neg (by simpa using hpos), if_pos (by simpa using hent)]
          intro _
          rfl
        · unfold placeObjectFortification
          rw [if_neg (by simpa using hpos), if_pos (by simpa using hent)]
          intro hc
          cases hc
    · refine ⟨?_, ?_, ?_⟩
      · unfold placeObjectFortification
        rw [if_pos (by simpa using hpos)]
        simp [hpos]
      · unfold placeObjectFortification
        rw [if_pos (by simpa using hpos)]
        intro _
        rfl
      · unfold placeObjectFortification
        rw [if_pos (by simpa using hpos)]
        intro hc
        cases hc
  · -- Ruin
    by_cases hpos : inTheMap st.mapSize position
    · by_cases hent : inTheMap st.mapSize (position + r.elem.entranceOffset)
      · have hrun :
            placeObjectRuin st r position ud =
              (none,
                let entrance := position + r.elem.entranceOffset
                let blocked :=
                  (r.elem.blockedOffsets.map (fun o => position + o)) ++ [entrance]
                let st1 := markUsedTiles blocked none st
                let st2 :=
                  if ud then
                    { st1 with nearDist :=
                        updateDistances st1.possibleTiles st1.nearDist position }
                  else st1
                { st2 with
                  mapElements := (r.id, position) :: st2.mapElements
                  objects := r.id :: st2.objects }) := by
          unfold placeObjectRuin
          rw [if_neg (by simpa using hpos), if_neg (by simpa using hent)]
        refine ⟨?_, ?_, ?_⟩
        · rw [hrun]
          simp [hpos, hent]
        · rw [hrun]
          intro hc
          cases hc
        · intro _
          rw [hrun]
          dsimp only
          constructor
          · intro t ht
            have h1 := markUsedTiles_occ
              ((r.elem.blockedOffsets.map (fun o => position + o)) ++
                [position + r.elem.entranceOffset]) none st t
            rw [if_pos ht] at h1
            cases ud <;> simp [h1]

          · constructor
            · exact List.mem_cons_self _ _
            · exact List.mem_cons_self _ _
      · refine ⟨?_, ?_, ?_⟩
        · unfold placeObjectRuin
          rw [if_neg (by simpa using hpos), if_pos (by simpa using hent)]
          simp [hent]
        · unfold placeObjectRuin
          rw [if_neg (by simpa using hpos), if_pos (by simpa using hent)]
          intro _
          rfl
        · unfold placeObjectRuin
          rw [if_neg (by simpa using hpos), if_pos (by simpa using hent)]
          intro hc
          cases hc
    · refine ⟨?_, ?_, ?_⟩
      · unfold placeObjectRuin
        rw [if_pos (by simpa using hpos)]
        simp [hpos]
      · unfold placeObjectRuin
        rw [if_pos (by simpa using hpos)]
        intro _
        rfl
      · unfold placeObjectRuin
        rw [if_pos (by simpa using hpos)]
        intro hc
        cases hc

/-- Witness for C10 at a concrete input: on a 6×6 all-Possible map, placing
a 3×3 fortification and a 3×3 ruin at `(1,1)` succeeds and commits the
object into the store and the map-element index. -/
theorem placeObject_atomic_witness :
    (placeObjectFortification
        { mapSize := 6, occ := fun _ => TileType.possible
          terrain := fun _ => (0, GroundType.plain)
          mapElements := [], objects := [], roadNodes := []
          possibleTiles := [], nearDist := fun _ => ⊤ }
        { id := 3, elem := ⟨3, 3, fun _ => true⟩, gapMask := 0,
          gapTiles := fun _ => [] } ⟨1, 1⟩ 0 true).1 = none ∧
    3 ∈ (placeObjectFortification
        { mapSize := 6, occ := fun _ => TileType.possible
          terrain := fun _ => (0, GroundType.plain)
          mapElements := [], objects := [], roadNodes := []
          possibleTiles := [], nearDist := fun _ => ⊤ }
        { id := 3, elem := ⟨3, 3, fun _ => true⟩, gapMask := 0,
          gapTiles := fun _ => [] } ⟨1, 1⟩ 0 true).2.objects ∧
    (placeObjectRuin
        { mapSize := 6, occ := fun _ => TileType.possible
          terrain := fun _ => (0, GroundType.plain)
          mapElements := [], objects := [], roadNodes := []
          possibleTiles := [], nearDist := fun _ => ⊤ }
        { id := 7, elem := ⟨3, 3, fun _ => true⟩ } ⟨1, 1⟩ true).1 = none ∧
    ((7, (⟨1, 1⟩ : Pos)) ∈ (placeObjectRuin
        { mapSize := 6, occ := fun _ => TileType.possible
          terrain := fun _ => (0, GroundType.plain)
          mapElements := [], objects := [], roadNodes := []
          possibleTiles := [], nearDist := fun _ => ⊤ }
        { id := 7, elem := ⟨3, 3, fun _ => true⟩ } ⟨1, 1⟩ true).2.mapElements) := by
  refine ⟨rfl, ?_, rfl, ?_⟩
  · exact ((placeObject_atomic
      { mapSize := 6, occ := fun _ => TileType.possible
        terrain := fun _ => (0, GroundType.plain)
        mapElements := [], objects := [], roadNodes := []
        possibleTiles := [], nearDist := fun _ => ⊤ }
      { id := 3, elem := ⟨3, 3, fun _ => true⟩, gapMask := 0,
        gapTiles := fun _ => [] }
      { id := 7, elem := ⟨3, 3, fun _ => true⟩ } ⟨1, 1⟩ 0 true).1.2.2 rfl).2.1
  · exact ((placeObject_atomic
      { mapSize := 6, occ := fun _ => TileType.possible
        terrain := fun _ => (0, GroundType.plain)
        mapElements := [], objects := [], roadNodes := []
        possibleTiles := [], nearDist := fun _ => ⊤ }
      { id := 3, elem := ⟨3, 3, fun _ => true⟩, gapMask := 0,
        gapTiles := fun _ => [] }
      { id := 7, elem := ⟨3, 3, fun _ => true⟩ } ⟨1, 1⟩ 0 true).2.2.2 rfl).2.2

/-! ## C2 -/

theorem findPlaceStep_of_not_ok (ctx : PlaceCtx) (e : MapElem)
    (minDistance : Nat) (fa : Bool) (st : WithTop Nat × Option Pos) (t : Pos)
    (h : ¬ findPlaceOk ctx e minDistance fa t) :
    findPlaceStep ctx e minDistance fa st t = st := by
  unfold findPlaceStep
  by_cases hb : elemAtTheBorder ctx.mapSize e t
  · simp [hb]
  · rw [if_neg hb]
    by_cases ha1 : (fa && !isAccessibleFromSomewhere ctx e t : Bool)
    · simp [ha1]
    · rw [if_neg ha1]
      by_cases ha2 : (fa && !isEntranceAccessible ctx e t : Bool)
      · simp [ha2]
      · rw [if_neg ha2]
        by_cases hp : ctx.occ t = TileType.possible
        · rw [if_neg (by simp [hp])]
          by_cases hd : (minDistance : WithTop Nat) ≤ ctx.nearDist t ∧
              st.1 < ctx.nearDist t
          · rw [if_pos hd]
            by_cases hav : areAllTilesAvailable ctx e t
            · exfalso
              apply h
              refine ⟨by simpa using hb, ?_, hp, hd.1, lt_of_le_of_lt (zero_le _) hd.2, hav⟩
              intro hfa
              subst hfa
              simp only [Bool.true_and, Bool.not_eq_true'] at ha1 ha2
              exact ⟨by simpa using ha1, by simpa using ha2⟩
            · rw [if_neg hav]
          · rw [if_neg hd]
        · rw [if_pos (by simp [hp])]

theorem findPlaceStep_of_ok (ctx : PlaceCtx) (e : MapElem)
    (minDistance : Nat) (fa : Bool) (st : WithTop Nat × Option Pos) (t : Pos)
    (h : findPlaceOk ctx e minDistance fa t) :
    (st.1 < ctx.nearDist t ∧
      findPlaceStep ctx e minDistance fa st t = (ctx.nearDist t, some t)) ∨
    (ctx.nearDist t ≤ st.1 ∧ findPlaceStep ctx e minDistance fa st t = st) := by
  obtain ⟨hb, hacc, hp, hmin, _hpos, hav⟩ := h
  have ha1 : (fa && !isAccessibleFromSomewhere ctx e t : Bool) = false := by
    cases hfa : fa
    · simp
    · simp [(hacc hfa).1]
  have ha2 : (fa && !isEntranceAccessible ctx e t : Bool) = false := by
    cases hfa : fa
    · simp
    · simp [(hacc hfa).2]
  unfold findPlaceStep
  rw [if_neg (by simp [hb]), if_neg (by simp [ha1]), if_neg (by simp [ha2]),
    if_neg (by simp [hp])]
  by_cases hlt : st.1 < ctx.nearDist t
  · left
    refine ⟨hlt, ?_⟩
    rw [if_pos ⟨hmin, hlt⟩, if_pos hav]
  · right
    exact ⟨le_of_not_lt hlt, by rw [if_neg (fun hc => hlt hc.2)]⟩

theorem findPlaceFold_spec (ctx : PlaceCtx) (e : MapElem) (minDistance : Nat)
    (fa : Bool) (l : List Pos) (st : WithTop Nat × Option Pos)
    (hnone : st.2 = none → st.1 = 0)
    (hsome : ∀ q, st.2 = some q →
      findPlaceOk ctx e minDistance fa q ∧ st.1 = ctx.nearDist q) :
    ((l.foldl (findPlaceStep ctx e minDistance fa) st).2 = none →
      (l.foldl (findPlaceStep ctx e minDistance fa) st).1 = 0) ∧
    (∀ q, (l.foldl (findPlaceStep ctx e minDistance fa) st).2 = some q →
      findPlaceOk ctx e minDistance fa q ∧
      (l.foldl (findPlaceStep ctx e minDistance fa) st).1 = ctx.nearDist q) ∧
    st.1 ≤ (l.foldl (findPlaceStep ctx e minDistance fa) st).1 ∧
    (∀ t ∈ l, findPlaceOk ctx e minDistance fa t →
      ctx.nearDist t ≤ (l.foldl (findPlaceStep ctx e minDistance fa) st).1) ∧
    ((l.foldl (findPlaceStep ctx e minDistance fa) st).2 = none →
      st.2 = none ∧ ∀ t ∈ l, ¬ findPlaceOk ctx e minDistance fa t) ∧
    (∀ q, (l.foldl (findPlaceStep ctx e minDistance fa) st).2 = some q →
      st.2 = some q ∨ q ∈ l) := by
  induction l generalizing st with
  | nil =>
      refine ⟨hnone, hsome, le_refl _, ?_, ?_, ?_⟩
      · intro t ht; cases ht
      · intro h; exact ⟨h, by intro t ht; cases ht⟩
      · intro q hq; exact Or.inl hq
  | cons a rest ih =>
      by_cases hok : findPlaceOk ctx e minDistance fa a
      · rcases findPlaceStep_of_ok ctx e minDistance fa st a hok with
          ⟨hlt, hstep⟩ | ⟨hle, hstep⟩
        · -- accepted: accumulator becomes (d a, some a)
          obtain ⟨c1, c2, c3, c4, c5, c6⟩ := ih (ctx.nearDist a, some a)
            (by intro hc; cases hc)
            (by
              intro q hq
              cases hq
              exact ⟨hok, rfl⟩)
          rw [List.foldl_cons, hstep]
          refine ⟨c1, c2, le_trans (le_of_lt hlt) c3, ?_, ?_, ?_⟩
          · intro t ht hokt
            rcases List.mem_cons.1 ht with he | hm
            · subst he; exact c3
            · exact c4 t hm hokt
          · intro hcnone
            obtain ⟨hc, _⟩ := c5 hcnone
            cases hc
          · intro q hq
            rcases c6 q hq with hq' | hm
            · have haq : a = q := by injection hq'
              exact Or.inr (haq ▸ List.mem_cons_self a rest)
            · exact Or.inr (List.mem_cons_of_mem a hm)
        · -- tile acceptable but not a strict improvement
          obtain ⟨c1, c2, c3, c4, c5, c6⟩ := ih st hnone hsome
          rw [List.foldl_cons, hstep]
          refine ⟨c1, c2, c3, ?_, ?_, ?_⟩
          · intro t ht hokt
            rcases List.mem_cons.1 ht with he | hm
            · subst he; exact le_trans hle c3
            · exact c4 t hm hokt
          · intro hcnone
            obtain ⟨h1, h2⟩ := c5 hcnone
            refine ⟨h1, ?_⟩
            intro t ht
            rcases List.mem_cons.1 ht with he | hm
            · subst he
              -- st.2 = none forces st.1 = 0, contradicting d a ≤ st.1 unless d a = 0
              intro hokt
              have hst1 := hnone h1
              rw [hst1] at hle
              have hzero : ctx.nearDist t = 0 := le_antisymm hle (zero_le _)
              exact absurd (hzero ▸ hokt.2.2.2.2.1) (lt_irrefl 0)
            · exact h2 t hm
          · intro q hq
            exact (c6 q hq).imp id (List.mem_cons_of_mem a)
      · obtain ⟨c1, c2, c3, c4, c5, c6⟩ := ih st hnone hsome
        rw [List.foldl_cons, findPlaceStep_of_not_ok ctx e minDistance fa st a hok]
        refine ⟨c1, c2, c3, ?_, ?_, fun q hq => (c6 q hq).imp id (List.mem_cons_of_mem a)⟩
        · intro t ht hokt
          rcases List.mem_cons.1 ht with he | hm
          · subst he; exact absurd hokt hok
          · exact c4 t hm hokt
        · intro hcnone
          obtain ⟨h1, h2⟩ := c5 hcnone
          refine ⟨h1, ?_⟩
          intro t ht
          rcases List.mem_cons.1 ht with he | hm
          · subst he; exact hok
          · exact h2 t hm

/-- C2: the claim says `findPlaceForObject` returns false exactly when no
tile of the area satisfies its listed constraints (Possible, distance ≥
minDistance, blocked offsets Possible and in-zone). This is false: the scan
additionally requires a strictly positive nearest-object distance (the best
distance starts at 0 and must strictly improve), so with `minDistance = 0` a
tile of distance 0 satisfying all listed constraints is never selected.
Concrete input: a 4×4 all-Possible single-zone map, `area = [(1,1)]`, a 1×1
element, `minDistance = 0`, all nearest-object distances 0. -/
theorem findPlaceForObject_claim_false :
    ¬ (∀ (ctx : PlaceCtx) (area : List Pos) (e : MapElem) (minDistance : Nat),
        findPlaceForObject ctx area e minDistance false = none →
        ∀ t ∈ area, ¬ claimC2Ok ctx e minDistance t) := by
  intro h
  have h0 := h
    { mapSize := 4, id := 1, zoneId := fun _ => 1,
      occ := fun _ => TileType.possible, nearDist := fun _ => 0 }
    [⟨1, 1⟩] ⟨1, 1, fun _ => true⟩ 0 (by decide) ⟨1, 1⟩ (by decide)
  apply h0
  refine ⟨rfl, le_refl _, ?_⟩
  intro o ho
  exact ⟨rfl, rfl⟩

/-- C2 (amended): `findPlaceForObject` returns a position only if that
position is in the area and satisfies the full constraint set: the element
does not touch the map border, the accessibility tests pass when requested,
the tile is `Possible`, its nearest-object distance `d` satisfies
`d ≥ minDistance` and `d > 0`, and every blocked-offset tile is in the map,
`Possible` and in the calling zone; moreover `d` is maximal among the area's
tiles satisfying those constraints. It returns `none` exactly when no tile
of the area satisfies them. -/
theorem findPlaceForObject_spec (ctx : PlaceCtx) (area : List Pos)
    (e : MapElem) (minDistance : Nat) (fa : Bool) :
    (∀ p, findPlaceForObject ctx area e minDistance fa = some p →
      p ∈ area ∧ findPlaceOk ctx e minDistance fa p ∧
      ∀ t ∈ area, findPlaceOk ctx e minDistance fa t →
        ctx.nearDist t ≤ ctx.nearDist p) ∧
    (findPlaceForObject ctx area e minDistance fa = none ↔
      ∀ t ∈ area, ¬ findPlaceOk ctx e minDistance fa t) := by
  obtain ⟨c1, c2, c3, c4, c5, c6⟩ := findPlaceFold_spec ctx e minDistance fa
    area (0, none) (fun _ => rfl) (fun q hq => by cases hq)
  constructor
  · intro p hp
    obtain ⟨hok, hbest⟩ := c2 p hp
    have hmem : p ∈ area := by
      rcases c6 p hp with hc | hm
      · cases hc
      · exact hm
    refine ⟨hmem, hok, ?_⟩
    intro t ht hokt
    have := c4 t ht hokt
    rw [hbest] at this
    exact this
  · constructor
    · intro hnone
      exact (c5 hnone).2
    · intro hall
      rcases hres : findPlaceForObject ctx area e minDistance fa with _ | p
      · rfl
      · obtain ⟨hok, _⟩ := c2 p hres
        have hmem : p ∈ area := by
          rcases c6 p hres with hc | hm
          · cases hc
          · exact hm
        exact absurd hok (hall p hmem)

/-- Witness for C2 (amended): a 4×4 all-Possible single-zone map with
constant nearest-object distance 5 and `minDistance = 2`; the scan picks the
single area tile `(1,1)` and the amended conclusions hold there. -/
theorem findPlaceForObject_spec_witness :
    (⟨1, 1⟩ : Pos) ∈ [(⟨1, 1⟩ : Pos)] ∧
    findPlaceOk
      { mapSize := 4, id := 1, zoneId := fun _ => 1,
        occ := fun _ => TileType.possible, nearDist := fun _ => 5 }
      ⟨1, 1, fun _ => true⟩ 2 false ⟨1, 1⟩ := by
  have h := (findPlaceForObject_spec
    { mapSize := 4, id := 1, zoneId := fun _ => 1,
      occ := fun _ => TileType.possible, nearDist := fun _ => 5 }
    [⟨1, 1⟩] ⟨1, 1, fun _ => true⟩ 2 false).1 ⟨1, 1⟩ (by decide)
  exact ⟨h.1, h.2.1⟩

/-! ## C1 -/

theorem countP_set_le {α : Type} (p : α → Bool) (l : List α) (pos : Nat)
    (v : α) :
    (l.set pos v).countP p ≤ l.countP p + (if p v then 1 else 0) := by
  induction l generalizing pos with
  | nil => simp
  | cons a tl ih =>
      cases pos with
      | zero =>
          simp only [List.set_cons_zero, List.countP_cons]
          by_cases hv : p v <;> by_cases ha : p a <;> simp [hv, ha] <;> omega
      | succ k =>
          simp only [List.set_cons_succ, List.countP_cons]
          have := ih k
          by_cases ha : p a <;> simp [ha] <;> omega

theorem countP_set_ge {α : Type} (p : α → Bool) (l : List α) (pos : Nat)
    (v : α) (hv : p v = true) :
    l.countP p ≤ (l.set pos v).countP p := by
  induction l generalizing pos with
  | nil => simp
  | cons a tl ih =>
      cases pos with
      | zero =>
          simp only [List.set_cons_zero, List.countP_cons, hv]
          by_cases ha : p a <;> simp [ha] <;> omega
      | succ k =>
          simp only [List.set_cons_succ, List.countP_cons]
          have := ih k
          by_cases ha : p a <;> simp [ha] <;> omega

theorem ite_le_one (c : Prop) [Decidable c] : (if c then 1 else 0) ≤ 1 := by
  split <;> omega

theorem addUnit_facts (g : GroupM) (id pos : Nat) (big : Bool) :
    ((g.addUnit id pos big).getD g).leader = g.leader ∧
    ((g.addUnit id pos big).getD g).soldierSlotCount ≤
      g.soldierSlotCount + (if big then 2 else 1) ∧
    g.occupiedCount ≤ ((g.addUnit id pos big).getD g).occupiedCount := by
  unfold GroupM.addUnit
  by_cases h1 : 6 ≤ pos
  · rw [if_pos h1]
    exact ⟨rfl, Nat.le_add_right _ _, le_refl _⟩
  · rw [if_neg h1]
    by_cases h2 : (g.slots.getD pos none).isSome = true
    · rw [if_pos h2]
      exact ⟨rfl, Nat.le_add_right _ _, le_refl _⟩
    · rw [if_neg h2]
      cases big with
      | false =>
          simp only [Bool.false_eq_true, if_false, Option.getD_some]
          refine ⟨trivial, ?_, ?_⟩
          · unfold GroupM.soldierSlotCount
            dsimp only
            have hle := countP_set_le
              (fun s => s.isSome && decide (s ≠ g.leader)) g.slots pos (some id)
            have hone := ite_le_one
              (((some id : Option Nat).isSome &&
                decide ((some id : Option Nat) ≠ g.leader)) = true)
            omega
          · unfold GroupM.occupiedCount
            dsimp only
            exact countP_set_ge _ g.slots pos (some id) (by simp)
      | true =>
          by_cases h3 : (g.slots.getD (pairSlot pos) none).isSome = true
          · rw [if_pos rfl, if_pos h3]
            exact ⟨rfl, Nat.le_add_right _ _, le_refl _⟩
          · rw [if_pos rfl, if_neg h3]
            simp only [Option.getD_some]
            refine ⟨trivial, ?_, ?_⟩
            · rw [if_true]
              unfold GroupM.soldierSlotCount
              dsimp only
              have hle1 := countP_set_le
                (fun s => s.isSome && decide (s ≠ g.leader))
                (g.slots.set pos (some id)) (pairSlot pos) (some id)
              have hle2 := countP_set_le
                (fun s => s.isSome && decide (s ≠ g.leader)) g.slots pos (some id)
              have hone := ite_le_one
                (((some id : Option Nat).isSome &&
                  decide ((some id : Option Nat) ≠ g.leader)) = true)
              omega
            · unfold GroupM.occupiedCount
              dsimp only
              have hge1 := countP_set_ge (fun s => (s : Option Nat).isSome)
                g.slots pos (some id) (by simp)
              have hge2 := countP_set_ge (fun s => (s : Option Nat).isSome)
                (g.slots.set pos (some id)) (pairSlot pos) (some id) (by simp)
              omega

theorem cguGo_facts (soldiers : List (Option UnitInfo)) :
    ∀ (fuel pos : Nat) (g : GroupM) (nid : Nat),
      (cguGo soldiers fuel pos g nid).1.leader = g.leader ∧
      (cguGo soldiers fuel pos g nid).1.soldierSlotCount ≤
        g.soldierSlotCount + soldierReqGo soldiers fuel pos ∧
      g.occupiedCount ≤ (cguGo soldiers fuel pos g nid).1.occupiedCount := by
  intro fuel
  induction fuel with
  | zero =>
      intro pos g nid
      exact ⟨rfl, Nat.le_add_right _ _, le_refl _⟩
  | succ n ih =>
      intro pos g nid
      show (cguGo soldiers (n + 1) pos g nid).1.leader = g.leader ∧ _
      unfold cguGo soldierReqGo
      by_cases h6 : 6 ≤ pos
      · simp only [h6, if_true]
        refine ⟨trivial, ?_, le_refl _⟩
        omega
      · rw [if_neg h6, if_neg h6]
        rcases hs : soldiers.getD pos none with _ | info
        · exact ih (pos + 1) g nid
        · dsimp only
          have hau := addUnit_facts g nid pos info.big
          have hrec := ih (pos + (if info.big then 2 else 1))
            ((g.addUnit nid pos info.big).getD g) (nid + 1)
          refine ⟨hrec.1.trans hau.1, ?_, le_trans hau.2.2 hrec.2.2⟩
          have h1 := hrec.2.1
          have h2 := hau.2.1
          -- the predicate in soldierSlotCount uses the (unchanged) leader
          omega

theorem addLeader_empty (pos : Nat) (big : Bool) (h : pos = 2 ∨ pos = 3) :
    ((GroupM.empty.addLeader 0 pos big).getD GroupM.empty).leader = some 0 ∧
    ((GroupM.empty.addLeader 0 pos big).getD GroupM.empty).soldierSlotCount = 0 ∧
    1 ≤ ((GroupM.empty.addLeader 0 pos big).getD GroupM.empty).occupiedCount := by
  rcases h with h | h <;> subst h <;> cases big <;> decide

theorem lp_fst_cases (leaderInfo : UnitInfo) (allPos : List Nat) :
    (if leaderInfo.big then ((2 : Nat), (allPos.erase 2).erase 3)
      else if leaderInfo.support then (3, allPos.erase 3)
      else if leaderInfo.reach ≠ ReachType.adjacent then (3, allPos.erase 3)
      else (2, allPos.erase 2)).1 = 2 ∨
    (if leaderInfo.big then ((2 : Nat), (allPos.erase 2).erase 3)
      else if leaderInfo.support then (3, allPos.erase 3)
      else if leaderInfo.reach ≠ ReachType.adjacent then (3, allPos.erase 3)
      else (2, allPos.erase 2)).1 = 3 := by
  split_ifs <;> simp

theorem buildStack_facts (leaderInfo : UnitInfo) (lp : Nat)
    (soldiers : List (Option UnitInfo)) (facing : Nat) (inv : List Nat)
    (h : lp = 2 ∨ lp = 3) :
    (buildStack leaderInfo lp soldiers facing inv).group.leader =
      some (buildStack leaderInfo lp soldiers facing inv).leaderUnitId ∧
    1 ≤ (buildStack leaderInfo lp soldiers facing inv).group.occupiedCount ∧
    (buildStack leaderInfo lp soldiers facing inv).group.soldierSlotCount ≤
      (buildStack leaderInfo lp soldiers facing inv).leaderInfo.leadership +
        ((buildStack leaderInfo lp soldiers facing inv).leaderModifiers.count
          leadershipModifierId) := by
  obtain ⟨hl, hs, ho⟩ := addLeader_empty lp leaderInfo.big h
  have hc := cguGo_facts soldiers 6 0
    ((GroupM.empty.addLeader 0 lp leaderInfo.big).getD GroupM.empty) 1
  unfold buildStack
  dsimp only
  refine ⟨hc.1.trans hl, le_trans ho hc.2.2, ?_⟩
  have hcount : (List.replicate
      ((if leaderInfo.big then 2 else 1) + soldierReqGo soldiers 6 0 -
        leaderInfo.leadership) leadershipModifierId).count
      leadershipModifierId =
      (if leaderInfo.big then 2 else 1) + soldierReqGo soldiers 6 0 -
        leaderInfo.leadership := List.count_replicate_self _ _
  rw [hcount]
  have h1 := hc.2.1
  rw [hs] at h1
  omega

/-- C1: for a stack spec whose value range starts at or above the catalog's
minimum leader value, any stack `createStack` returns contains exactly one
leader (the group's single leader slot is set to the leader unit), at least
one unit, and the leader's leadership — its base leadership plus the
`+1 Leadership` modifier items attached by the fix-up — is at least the
number of soldier slots occupied, a big unit's slot pair counting as 2. -/
theorem createStack_spec (gi : GameInfo) (itemCatalog : List ItemInfo)
    (forbItemsT forbItemsS : List Nat) (stackInfo : GroupInfo)
    (neutralOwner : Bool) (tightenFuel lootFuel : Nat) (r : Rng)
    (sv : Nat × Nat) (st : StackOut) (r' : Rng)
    (hval : stackInfo.value = some sv)
    (hmin : gi.minLeaderValue ≤ sv.1)
    (hrun : createStack gi itemCatalog forbItemsT forbItemsS stackInfo
      neutralOwner tightenFuel lootFuel r = some (StackResult.ok st, r')) :
    st.group.leader = some st.leaderUnitId ∧
    1 ≤ st.group.occupiedCount ∧
    st.group.soldierSlotCount ≤
      st.leaderInfo.leadership +
        st.leaderModifiers.count leadershipModifierId := by
  unfold createStack at hrun
  rw [hval] at hrun
  dsimp only at hrun
  split at hrun
  · -- no leader could be picked: the run returns an error, not a stack
    cases hrun
  · -- leader picked; split on the tighten result
    split at hrun
    · cases hrun
    · -- tighten succeeded; split on the loot result
      split at hrun
      · cases hrun
      · simp only [Option.some.injEq, Prod.mk.injEq, StackResult.ok.injEq]
          at hrun
        obtain ⟨hst, _⟩ := hrun
        subst hst
        exact buildStack_facts _ _ _ _ _ (lp_fst_cases _ _)

/-- Witness for C1: a one-leader catalog, a (50, 50) value range and the
all-zero random stream produce a concrete stack satisfying the spec. -/
theorem createStack_spec_witness :
    stackDemoInfo.value = some (50, 50) ∧
    stackDemoGame.minLeaderValue ≤ 50 ∧
    (stackDemoOut.group.leader = some stackDemoOut.leaderUnitId ∧
     1 ≤ stackDemoOut.group.occupiedCount ∧
     stackDemoOut.group.soldierSlotCount ≤
       stackDemoOut.leaderInfo.leadership +
         stackDemoOut.leaderModifiers.count leadershipModifierId) :=
  ⟨rfl, by decide,
   createStack_spec stackDemoGame [] [] [] stackDemoInfo false 1500 8
     ⟨fun _ => 0, 0⟩ (50, 50) stackDemoOut ⟨fun _ => 0, 4⟩ rfl (by decide) rfl⟩

/-! ## C3 -/

theorem sealStep_occ (s : PathState) (a t : Pos) :
    (sealStep s a).occ t =
      if t = a ∧ s.occ a = TileType.possible then TileType.blocked
      else s.occ t := by
  unfold sealStep
  by_cases hp : s.occ a = TileType.possible
  · rw [if_pos hp]
    by_cases hta : t = a
    · subst hta; simp [hp]
    · simp [hta]
  · rw [if_neg hp]
    by_cases hta : t = a
    · subst hta; simp [hp]
    · simp [hta]

theorem sealStep_possibleTiles (s : PathState) (a : Pos) :
    (sealStep s a).possibleTiles = s.possibleTiles.erase a := by
  unfold sealStep
  by_cases hp : s.occ a = TileType.possible
  · rw [if_pos hp]
  · rw [if_neg hp]

theorem sealOff_occ (closed : List Pos) (st : PathState) (t : Pos) :
    (sealOff closed st).occ t =
      if t ∈ closed ∧ st.occ t = TileType.possible then TileType.blocked
      else st.occ t := by
  induction closed generalizing st with
  | nil => simp [sealOff]
  | cons a rest ih =>
      show (sealOff rest (sealStep st a)).occ t = _
      rw [ih]
      by_cases hta : t = a
      · subst hta
        by_cases hp : st.occ t = TileType.possible
        · have hso : (sealStep st t).occ t = TileType.blocked := by
            rw [sealStep_occ]; simp [hp]
          rw [hso]
          simp [List.mem_cons, hp]
        · have hso : (sealStep st t).occ t = st.occ t := by
            rw [sealStep_occ]; simp [hp]
          rw [hso]
          by_cases htr : t ∈ rest <;> simp [htr, hp]
      · have hso : (sealStep st a).occ t = st.occ t := by
          rw [sealStep_occ]; simp [hta]
        rw [hso]
        by_cases htr : t ∈ rest
        · simp [htr, List.mem_cons]
        · simp [htr, hta, List.mem_cons]

theorem sealOff_possibleTiles (closed : List Pos) (st : PathState)
    (hnodup : st.possibleTiles.Nodup) :
    (sealOff closed st).possibleTiles.Nodup ∧
    ∀ t, t ∈ (sealOff closed st).possibleTiles ↔
      t ∈ st.possibleTiles ∧ t ∉ closed := by
  induction closed generalizing st with
  | nil =>
      refine ⟨hnodup, ?_⟩
      intro t
      simp [sealOff]
  | cons a rest ih =>
      have hstep := sealStep_possibleTiles st a
      have hnodup' : (sealStep st a).possibleTiles.Nodup := by
        rw [hstep]; exact hnodup.erase a
      obtain ⟨hnd, hmem⟩ := ih (sealStep st a) hnodup'
      refine ⟨hnd, ?_⟩
      intro t
      show t ∈ (sealOff rest (sealStep st a)).possibleTiles ↔ _
      rw [hmem t, hstep, hnodup.mem_erase_iff]
      constructor
      · rintro ⟨⟨hne, hm⟩, hnr⟩
        exact ⟨hm, by simp [List.mem_cons, hne, hnr]⟩
      · rintro ⟨hm, hnc⟩
        simp only [List.mem_cons, not_or] at hnc
        exact ⟨⟨hnc.1, hm⟩, hnc.2⟩

theorem paintFree_occ (path : List Pos) (st : PathState) (t : Pos) :
    (paintFree path st).occ t =
      if t ∈ path then TileType.free else st.occ t := by
  induction path generalizing st with
  | nil => simp [paintFree]
  | cons a rest ih =>
      show (paintFree rest _).occ t = _
      rw [ih]
      by_cases htr : t ∈ rest
      · simp [htr, List.mem_cons]
      · by_cases hta : t = a
        · subst hta; simp [htr]
        · simp [htr, hta, List.mem_cons]

/-- C3: the claim says the failure branch's only state change is that
closed tiles which were `Possible` become `Blocked` and are removed from
`possibleTiles` — implying a closed tile in another state stays in
`possibleTiles`. This is false: the cleanup erases *every* closed tile from
`possibleTiles`. Concrete input: a 2-tile zone where the source `(0,0)` is
`Possible`, its only in-zone neighbor `(1,0)` is `Used` (traversable but not
`Free`), and both are listed in `possibleTiles`; the search exhausts, and
the `Used` tile `(1,0)` is also removed from `possibleTiles`. -/
theorem connectPath_claim_false :
    ¬ (∀ (ctx : PathCtx) (source : Pos) (os : Bool) (st : PathState)
        (fuel : Nat) (st' : PathState),
        connectPath ctx source os st fuel = some (false, st') →
        ∀ t, st.occ t ≠ TileType.possible →
          (t ∈ st'.possibleTiles ↔ t ∈ st.possibleTiles)) := by
  intro h
  have h0 := h ⟨2, 1, fun p => if p.y = 0 then 1 else 2⟩ ⟨0, 0⟩ true
    ⟨fun p => if p = ⟨0, 0⟩ then TileType.possible
      else if p = ⟨1, 0⟩ then TileType.used else TileType.blocked,
      [⟨0, 0⟩, ⟨1, 0⟩]⟩ 10
    (sealOff [⟨1, 0⟩, ⟨0, 0⟩]
      ⟨fun p => if p = ⟨0, 0⟩ then TileType.possible
        else if p = ⟨1, 0⟩ then TileType.used else TileType.blocked,
        [⟨0, 0⟩, ⟨1, 0⟩]⟩)
    rfl ⟨1, 0⟩ (by decide)
  exact absurd (h0.mpr (by decide)) (by decide)

/-- C3 (amended): when the search exhausts its open queue, `connectPath`
returns false and its only state change is the sealed-off cleanup: every
closed tile that was `Possible` is set `Blocked` (all other tiles keep their
occupancy), and *every* closed tile — whatever its state — is removed from
the zone's `possibleTiles` (no other tile is removed). On success it
returns true and sets exactly the backtracked path tiles `Free`. -/
theorem connectPath_effects (ctx : PathCtx) (source : Pos) (os : Bool)
    (st : PathState) (fuel : Nat)
    (hnodup : st.possibleTiles.Nodup) :
    (∀ closed, connectSearch ctx st os fuel (initialSearch source) =
        some (SearchOutcome.exhausted closed) →
      connectPath ctx source os st fuel = some (false, sealOff closed st) ∧
      (∀ t, (sealOff closed st).occ t =
        if t ∈ closed ∧ st.occ t = TileType.possible then TileType.blocked
        else st.occ t) ∧
      (∀ t, t ∈ (sealOff closed st).possibleTiles ↔
        t ∈ st.possibleTiles ∧ t ∉ closed)) ∧
    (∀ path, connectSearch ctx st os fuel (initialSearch source) =
        some (SearchOutcome.reachedFree path) →
      connectPath ctx source os st fuel = some (true, paintFree path st) ∧
      ∀ t, (paintFree path st).occ t =
        if t ∈ path then TileType.free else st.occ t) := by
  constructor
  · intro closed hrun
    refine ⟨?_, fun t => sealOff_occ closed st t,
      (sealOff_possibleTiles closed st hnodup).2⟩
    unfold connectPath
    rw [hrun]
  · intro path hrun
    refine ⟨?_, fun t => paintFree_occ path st t⟩
    unfold connectPath
    rw [hrun]

/-- Witness for C3 (amended) at the concrete sealed-off input: the search
exhausts with closed set `[(1,0), (0,0)]`; `connectPath` returns false, the
`Possible` source is now `Blocked`, and both closed tiles are gone from
`possibleTiles`. -/
theorem connectPath_effects_witness :
    connectPath ⟨2, 1, fun p => if p.y = 0 then 1 else 2⟩ ⟨0, 0⟩ true
      ⟨fun p => if p = ⟨0, 0⟩ then TileType.possible
        else if p = ⟨1, 0⟩ then TileType.used else TileType.blocked,
        [⟨0, 0⟩, ⟨1, 0⟩]⟩ 10 =
      some (false, sealOff [⟨1, 0⟩, ⟨0, 0⟩]
        ⟨fun p => if p = ⟨0, 0⟩ then TileType.possible
          else if p = ⟨1, 0⟩ then TileType.used else TileType.blocked,
          [⟨0, 0⟩, ⟨1, 0⟩]⟩) ∧
    (sealOff [⟨1, 0⟩, ⟨0, 0⟩]
      ⟨fun p => if p = ⟨0, 0⟩ then TileType.possible
        else if p = ⟨1, 0⟩ then TileType.used else TileType.blocked,
        [⟨0, 0⟩, ⟨1, 0⟩]⟩).occ ⟨0, 0⟩ = TileType.blocked ∧
    ((⟨1, 0⟩ : Pos) ∉ (sealOff [⟨1, 0⟩, ⟨0, 0⟩]
      ⟨fun p => if p = ⟨0, 0⟩ then TileType.possible
        else if p = ⟨1, 0⟩ then TileType.used else TileType.blocked,
        [⟨0, 0⟩, ⟨1, 0⟩]⟩).possibleTiles) := by
  have h := (connectPath_effects ⟨2, 1, fun p => if p.y = 0 then 1 else 2⟩
    ⟨0, 0⟩ true
    ⟨fun p => if p = ⟨0, 0⟩ then TileType.possible
      else if p = ⟨1, 0⟩ then TileType.used else TileType.blocked,
      [⟨0, 0⟩, ⟨1, 0⟩]⟩ 10 (by decide)).1 [⟨1, 0⟩, ⟨0, 0⟩] rfl
  refine ⟨h.1, ?_, ?_⟩
  · rw [h.2.1 ⟨0, 0⟩]
    decide
  · intro hmem
    have := (h.2.2 ⟨1, 0⟩).1 hmem
    exact absurd this.2 (by decide)

/-! ## C4 -/

theorem alookup_mem {α : Type} (l : List (Pos × α)) (k : Pos) (v : α)
    (h : alookup l k = some v) : (k, v) ∈ l := by
  unfold alookup at h
  rcases hf : l.find? (fun e => e.1 = k) with _ | e
  · rw [hf] at h
    cases h
  · rw [hf] at h
    have hk : e.1 = k := by
      have := List.find?_some hf
      simpa using this
    have hv : e.2 = v := by
      simpa using h
    have hm := List.mem_of_find?_eq_some hf
    rw [← hk, ← hv]
    exact hm

theorem roadFunctor_cameFrom (ctx : RoadCtx) (st : RoadState)
    (dest current : Pos) (key cost : Nat) (ss : RoadSearch × Bool) (p : Pos)
    (e : Pos × Pos)
    (h : e ∈ (roadFunctor ctx st dest current key cost ss p).1.cameFrom) :
    e ∈ ss.1.cameFrom ∨ (e = (p, current) ∧ ctx.water p = false) := by
  unfold roadFunctor at h
  by_cases hc : p ∈ ss.1.closed
  · rw [if_pos hc] at h
    exact Or.inl h
  · rw [if_neg hc] at h
    dsimp only at h
    by_cases hni :
        (match alookup ss.1.distances p with
          | some best => decide (best ≤ key + cost)
          | none => false) = true
    · rw [if_pos hni] at h
      exact Or.inl h
    · rw [if_neg hni] at h
      by_cases hw : ctx.water p = true
      · rw [if_pos hw] at h
        exact Or.inl h
      · rw [if_neg hw] at h
        by_cases hcond :
            ((st.occ p = TileType.free ∧ st.occ current = TileType.free) ∨
              ((ctx.visitable p ∨ ctx.visitable current) ∧
                ctx.canMoveBetween current p = true) ∨ p = dest) ∧
            (ctx.zoneId p = ctx.id ∨ p = dest)
        · rw [if_pos hcond] at h
          dsimp only at h
          rcases List.mem_cons.1 h with heq | hm
          · exact Or.inr ⟨heq, by simpa using hw⟩
          · exact Or.inl hm
        · rw [if_neg hcond] at h
          exact Or.inl h

theorem roadFold_cameFrom (ctx : RoadCtx) (st : RoadState)
    (dest current : Pos) (key cost : Nat) (nb : List Pos)
    (ssb : RoadSearch × Bool) (e : Pos × Pos)
    (h : e ∈ (nb.foldl (roadFunctor ctx st dest current key cost) ssb).1.cameFrom) :
    e ∈ ssb.1.cameFrom ∨
      (∃ p ∈ nb, e = (p, current) ∧ ctx.water p = false) := by
  induction nb generalizing ssb with
  | nil => exact Or.inl h
  | cons a rest ih =>
      rcases ih (roadFunctor ctx st dest current key cost ssb a) h with hm | ⟨p, hp, he⟩
      · rcases roadFunctor_cameFrom ctx st dest current key cost ssb a e hm with
          hm' | he
        · exact Or.inl hm'
        · exact Or.inr ⟨a, List.mem_cons_self a rest, he⟩
      · exact Or.inr ⟨p, List.mem_cons_of_mem a hp, he⟩

theorem roadSearchLoop_good (ctx : RoadCtx) (st : RoadState) (dest : Pos) :
    ∀ (fuel : Nat) (ss : RoadSearch) (cur : Pos) (cf : List (Pos × Pos))
      (dst : List (Pos × Nat)),
      roadSearchLoop ctx st dest fuel ss =
        some (RoadOutcome.found cur cf dst) →
      (∀ e ∈ ss.cameFrom, goodParent ctx e) →
      ∀ e ∈ cf, goodParent ctx e := by
  intro fuel
  induction fuel with
  | zero => intro ss cur cf dst h; cases h
  | succ n ih =>
      intro ss cur cf dst h hgood
      unfold roadSearchLoop at h
      rcases hq : popMin ss.queue with _ | ⟨⟨current, key⟩, queue'⟩
      · rw [hq] at h
        cases h
      · rw [hq] at h
        dsimp only at h
        by_cases hstop : current = dest ∨ st.roadFlags current = true
        · rw [if_pos hstop] at h
          cases h
          exact hgood
        · rw [if_neg hstop] at h
          apply ih _ cur cf dst h
          intro e he
          -- e comes from the straight fold or the diagonal fold on top of it
          by_cases hfound :
              ((directNeighbors ctx.mapSize current).foldl
                (roadFunctor ctx st dest current key 10)
                ({ ss with closed := current :: ss.closed, queue := queue' },
                  false)).2 = true
          · rw [if_pos hfound] at he
            rcases roadFold_cameFrom ctx st dest current key 10 _ _ e he with
              hm | ⟨p, hp, hep, hw⟩
            · exact hgood e hm
            · intro _
              subst hep
              exact ⟨Or.inl hp, hw⟩
          · rw [if_neg hfound] at he
            rcases roadFold_cameFrom ctx st dest current key 21 _ _ e he with
              hm | ⟨p, hp, hep, hw⟩
            · rcases roadFold_cameFrom ctx st dest current key 10 _ _ e hm with
                hm' | ⟨p, hp, hep, hw⟩
              · exact hgood e hm'
              · intro _
                subst hep
                exact ⟨Or.inl hp, hw⟩
            · intro _
              subst hep
              exact ⟨Or.inr hp, hw⟩

theorem roadBacktrack_head (fuel : Nat) (cf : List (Pos × Pos))
    (dist : List (Pos × Nat)) (b : Pos) :
    ∀ y ∈ (roadBacktrack fuel cf dist b).head?, y.1 = b := by
  cases fuel with
  | zero => intro y hy; cases hy
  | succ n =>
      intro y hy
      unfold roadBacktrack at hy
      rcases hl : alookup cf b with _ | parent
      · rw [hl] at hy
        cases hy
      · rw [hl] at hy
        dsimp only at hy
        by_cases hv : parent.isValid
        · rw [if_pos hv] at hy
          cases hy
          rfl
        · rw [if_neg hv] at hy
          cases hy

theorem roadBacktrack_props (ctx : RoadCtx) :
    ∀ (fuel : Nat) (cf : List (Pos × Pos)) (dist : List (Pos × Nat)) (b : Pos),
      (∀ e ∈ cf, goodParent ctx e) →
      (∀ q ∈ roadBacktrack fuel cf dist b, ctx.water q.1 = false) ∧
      List.Chain' (fun x y => isRoadStep ctx.mapSize x.1 y.1)
        (roadBacktrack fuel cf dist b) := by
  intro fuel
  induction fuel with
  | zero =>
      intro cf dist b _
      exact ⟨fun q hq => (nomatch hq), List.chain'_nil⟩
  | succ n ih =>
      intro cf dist b hgood
      unfold roadBacktrack
      rcases hl : alookup cf b with _ | parent
      · dsimp only
        exact ⟨fun q hq => (nomatch hq), List.chain'_nil⟩
      · dsimp only
        by_cases hv : parent.isValid
        · rw [if_pos hv]
          have hmem := alookup_mem cf b parent hl
          have hb := hgood (b, parent) hmem hv
          obtain ⟨hrest_w, hrest_c⟩ := ih cf dist parent hgood
          constructor
          · intro q hq
            rcases List.mem_cons.1 hq with heq | hm
            · rw [heq]
              exact hb.2
            · exact hrest_w q hm
          · rw [List.chain'_cons']
            refine ⟨?_, hrest_c⟩
            intro y hy
            have hyp := roadBacktrack_head n cf dist parent y hy
            show isRoadStep ctx.mapSize b y.1
            rw [hyp]
            exact hb.1
        · rw [if_neg hv]
          exact ⟨fun q hq => (nomatch hq), List.chain'_nil⟩

theorem createRoad_roads (ctx : RoadCtx) (src dest : Pos) (st : RoadState)
    (fuel : Nat) (b : Bool) (st' : RoadState)
    (h : createRoad ctx src dest st fuel = some (b, st')) :
    (b = false → st'.roads = st.roads) ∧
    (b = true → ∃ path, st'.roads = st.roads ++ [⟨src, dest, path⟩] ∧
      (∀ q ∈ path, ctx.water q.1 = false) ∧
      List.Chain' (fun x y => isRoadStep ctx.mapSize x.1 y.1) path) := by
  unfold createRoad at h
  dsimp only at h
  rcases hrun : roadSearchLoop ctx
      { st with roadFlags := fun p => if p = src then false else st.roadFlags p }
      dest fuel
      { closed := []
        queue := [(src, 0)]
        cameFrom := [(src, ⟨-1, -1⟩)]
        distances := [(src, 0)] } with _ | out
  · rw [hrun] at h
    cases h
  · rw [hrun] at h
    cases out with
    | failed =>
        cases h
        exact ⟨fun _ => rfl, fun hc => (by cases hc)⟩
    | found cur cf dst =>
        cases h
        refine ⟨fun hc => (by cases hc), fun _ => ?_⟩
        refine ⟨roadBacktrack (cf.length + 1) cf dst cur, rfl, ?_⟩
        have hgood : ∀ e ∈ cf, goodParent ctx e := by
          apply roadSearchLoop_good ctx _ dest fuel _ cur cf dst hrun
          intro e he
          rcases List.mem_cons.1 he with heq | hm
          · subst heq
            intro hv
            have hvv : (⟨-1, -1⟩ : Pos).isValid = true := hv
            exact absurd hvv (by decide)
          · cases hm
        exact roadBacktrack_props ctx (cf.length + 1) cf dst cur hgood

/-- C4: the claim says a recorded road path never contains a diagonal step.
This is false: when no straight neighbor advances, the A* falls back to
diagonal neighbors (cost 2.1) and these become real path links. Concrete
input: a 3×3 map whose four edge-center tiles are water; the only route from
`(0,0)` to `(2,2)` is the diagonal `(0,0) → (1,1) → (2,2)`, and the recorded
path `[(2,2), (1,1)]` has a diagonal consecutive pair. -/
theorem createRoad_claim_false :
    ¬ (∀ (ctx : RoadCtx) (src dest : Pos) (st : RoadState) (fuel : Nat)
        (st' : RoadState),
        createRoad ctx src dest st fuel = some (true, st') →
        ∀ road ∈ st'.roads,
          List.Chain' (fun x y => isStraightStep x.1 y.1) road.path) := by
  intro h
  have key : ∃ st',
      createRoad roadDemoCtx ⟨0, 0⟩ ⟨2, 2⟩ roadDemoState 20 =
        some (true, st') ∧
      ¬ (∀ road ∈ st'.roads,
          List.Chain' (fun x y => isStraightStep x.1 y.1) road.path) := by
    refine ⟨_, rfl, ?_⟩
    intro hall
    have hchain := hall ⟨⟨0, 0⟩, ⟨2, 2⟩, [(⟨2, 2⟩, 42), (⟨1, 1⟩, 21)]⟩
      (by decide)
    rw [List.chain'_cons] at hchain
    exact absurd hchain.1 (by decide)
  obtain ⟨st', hrun, hbad⟩ := key
  exact hbad (h roadDemoCtx ⟨0, 0⟩ ⟨2, 2⟩ roadDemoState 20 st' hrun)

/-- C4 (amended): every road path recorded by `createRoad` (and hence every
`RoadInfo` accumulated by `connectRoads`) never passes through water tiles,
and every consecutive pair of path tiles is a single in-map step — straight
*or diagonal*. Diagonal steps do occur: they are taken when no straight
neighbor advances the search. -/
theorem roadPaths_spec (ctx : RoadCtx) :
    (∀ (src dest : Pos) (st : RoadState) (fuel : Nat) (st' : RoadState),
      createRoad ctx src dest st fuel = some (true, st') →
      ∃ path, st'.roads = st.roads ++ [⟨src, dest, path⟩] ∧
        (∀ q ∈ path, ctx.water q.1 = false) ∧
        List.Chain' (fun x y => isRoadStep ctx.mapSize x.1 y.1) path) ∧
    (∀ (st : RoadState) (fuel : Nat) (nodes processed : List Pos)
      (stFinal : RoadState),
      connectRoads ctx st fuel nodes processed = some stFinal →
      ∀ road ∈ stFinal.roads, road ∈ st.roads ∨
        ((∀ q ∈ road.path, ctx.water q.1 = false) ∧
          List.Chain' (fun x y => isRoadStep ctx.mapSize x.1 y.1) road.path)) := by
  have hcr := createRoad_roads ctx
  constructor
  · intro src dest st fuel st' h
    exact (hcr src dest st fuel true st' h).2 rfl
  · have hstep : ∀ (src dest : Pos) (st : RoadState) (fuel : Nat) (b : Bool)
        (st' : RoadState), createRoad ctx src dest st fuel = some (b, st') →
        ∀ road ∈ st'.roads, road ∈ st.roads ∨
          ((∀ q ∈ road.path, ctx.water q.1 = false) ∧
            List.Chain' (fun x y => isRoadStep ctx.mapSize x.1 y.1) road.path) := by
      intro src dest st fuel b st' h road hmem
      cases b with
      | false =>
          rw [(hcr src dest st fuel false st' h).1 rfl] at hmem
          exact Or.inl hmem
      | true =>
          obtain ⟨path, hroads, hw, hc⟩ := (hcr src dest st fuel true st' h).2 rfl
          rw [hroads] at hmem
          rcases List.mem_append.1 hmem with hm | hm
          · exact Or.inl hm
          · rcases List.mem_singleton.1 hm with rfl
            exact Or.inr ⟨hw, hc⟩
    have main : ∀ (n : Nat) (fuel : Nat) (nodes : List Pos),
        nodes.length ≤ n →
        ∀ (st : RoadState) (processed : List Pos) (stFinal : RoadState),
        connectRoads ctx st fuel nodes processed = some stFinal →
        ∀ road ∈ stFinal.roads, road ∈ st.roads ∨
          ((∀ q ∈ road.path, ctx.water q.1 = false) ∧
            List.Chain' (fun x y => isRoadStep ctx.mapSize x.1 y.1) road.path) := by
      intro n
      induction n with
      | zero =>
          intro fuel nodes hlen st processed stFinal h road hmem
          have hnil : nodes = [] :=
            List.eq_nil_of_length_eq_zero (Nat.le_zero.1 hlen)
          subst hnil
          unfold connectRoads at h
          cases h
          exact Or.inl hmem
      | succ n ih =>
          intro fuel nodes hlen st processed stFinal h road hmem
          cases nodes with
          | nil =>
              unfold connectRoads at h
              cases h
              exact Or.inl hmem
          | cons node rest =>
              unfold connectRoads at h
              rcases hc : chooseCross node rest processed with _ | crossNode
              · rw [hc] at h
                dsimp only at h
                cases h
                exact Or.inl hmem
              · rw [hc] at h
                dsimp only at h
                rcases hcr : createRoad ctx node crossNode st fuel with _ | ⟨ok, st'⟩
                · rw [hcr] at h
                  cases h
                · rw [hcr] at h
                  dsimp only at h
                  cases ok with
                  | true =>
                      rw [if_pos rfl] at h
                      have hlen' : (rest.erase crossNode).length ≤ n := by
                        have h1 := List.length_erase_le crossNode rest
                        have h2 : rest.length + 1 ≤ n + 1 := by
                          simpa using hlen
                        omega
                      have hrec := ih fuel (rest.erase crossNode) hlen' st'
                        (node :: crossNode :: processed) stFinal h road hmem
                      rcases hrec with hm | hp
                      · exact hstep node crossNode st fuel true st' hcr road hm
                      · exact Or.inr hp
                  | false =>
                      rw [if_neg (by simp)] at h
                      have hlen' : rest.length ≤ n := by
                        have h2 : rest.length + 1 ≤ n + 1 := by
                          simpa using hlen
                        omega
                      have hrec := ih fuel rest hlen' st'
                        (node :: processed) stFinal h road hmem
                      rcases hrec with hm | hp
                      · exact hstep node crossNode st fuel false st' hcr road hm
                      · exact Or.inr hp
    intro st fuel nodes processed stFinal h
    exact main nodes.length fuel nodes (le_refl _) st processed stFinal h


theorem pickValue_fst_ge (r : Rng) (a b : Nat) : a ≤ (r.pickValue (a, b)).1 := by
  unfold Rng.pickValue Rng.nextInteger Rng.next
  dsimp only
  by_cases h : a ≤ b
  · rw [if_pos h]
    exact Nat.le_add_right a _
  · rw [if_neg h]

theorem lootRequired_preserve (reqs : List RequiredItem)
    (acc : List (Nat × Nat) × Rng) (e : Nat × Nat) (he : e ∈ acc.1) :
    e ∈ (reqs.foldl lootRequiredStep acc).1 := by
  induction reqs generalizing acc with
  | nil => exact he
  | cons a rest ih =>
      apply ih
      unfold lootRequiredStep
      by_cases h0 : a.itemId = 0
      · rw [if_pos h0]
        exact he
      · rw [if_neg h0]
        dsimp only
        by_cases hp : 0 < (acc.2.pickValue a.amount).1
        · rw [if_pos hp]
          exact List.mem_append_left _ he
        · rw [if_neg hp]
          exact he

theorem lootRequired_mem (reqs : List RequiredItem)
    (acc : List (Nat × Nat) × Rng) (req : RequiredItem) (hmem : req ∈ reqs)
    (hid : req.itemId ≠ 0) (hmin : 1 ≤ req.amount.1) :
    ∃ n, 0 < n ∧ (req.itemId, n) ∈ (reqs.foldl lootRequiredStep acc).1 := by
  induction reqs generalizing acc with
  | nil => cases hmem
  | cons a rest ih =>
      rcases List.mem_cons.1 hmem with heq | hm
      · subst heq
        have hpos : 0 < (acc.2.pickValue req.amount).1 :=
          lt_of_lt_of_le hmin (pickValue_fst_ge acc.2 req.amount.1 req.amount.2)
        have hstep : lootRequiredStep acc req =
            (acc.1 ++ [(req.itemId, (acc.2.pickValue req.amount).1)],
              (acc.2.pickValue req.amount).2) := by
          unfold lootRequiredStep
          rw [if_neg hid]
          dsimp only
          rw [if_pos hpos]
        refine ⟨(acc.2.pickValue req.amount).1, hpos, ?_⟩
        have : (req.itemId, (acc.2.pickValue req.amount).1) ∈
            (lootRequiredStep acc req).1 := by
          rw [hstep]
          exact List.mem_append_right _ (List.mem_singleton.2 rfl)
        exact lootRequired_preserve rest _ _ this
      · exact ih (lootRequiredStep acc a) hm

theorem pickItemM_some (catalog : List ItemInfo)
    (filters : List (ItemInfo → Bool)) (r : Rng) (item : ItemInfo) (r' : Rng)
    (h : pickItemM catalog filters r = (some item, r')) :
    item ∈ catalog ∧ filters.all (fun f => !(f item)) = true := by
  unfold pickItemM at h
  rcases hc : catalog.filter (fun i => filters.all (fun f => !(f i))) with _ | ⟨c, cs⟩
  · rw [hc] at h
    cases h
  · rw [hc] at h
    dsimp only at h
    have hget := congrArg Prod.fst h
    dsimp only at hget
    have hmem : item ∈ c :: cs := by
      have := List.getElem?_mem hget
      exact this
    rw [← hc] at hmem
    have := List.mem_filter.1 hmem
    exact ⟨this.1, this.2⟩

theorem createLootRandom_spec (catalog : List ItemInfo)
    (ft fs : List Nat) (loot : LootInfo) (fm : Bool) (desired : Nat) :
    ∀ (fuel current : Nat) (items : List (Nat × Nat)) (r : Rng)
      (out : List (Nat × Nat) × Nat × Rng),
      createLootRandom catalog ft fs loot fm desired fuel current items r =
        some out →
      current ≤ desired →
      out.2.1 ≤ desired ∧ ∀ e ∈ items, e ∈ out.1 := by
  intro fuel
  induction fuel with
  | zero => intro current items r out h; cases h
  | succ n ih =>
      intro current items r out h hle
      unfold createLootRandom at h
      rw [if_pos hle] at h
      rcases hp : pickItemM catalog _ r with ⟨oi, r'⟩
      rw [hp] at h
      cases oi with
      | none =>
          cases h
          exact ⟨hle, fun e he => he⟩
      | some item =>
          have hmem := pickItemM_some _ _ _ _ _ hp
          have hval : ¬ (desired - current < item.value) := by
            have hall := hmem.2
            simp only [lootFilters, List.all_cons, List.all_nil,
              Bool.and_eq_true, Bool.not_eq_true'] at hall
            have hwv := hall.2.1
            intro hcon
            rcases hmv : loot.itemValue with _ | iv <;>
              simp [hmv, hcon] at hwv
          have hnext : current + item.value ≤ desired := by omega
          have := ih (current + item.value) (items ++ [(item.itemId, 1)]) r'
            out h hnext
          exact ⟨this.1, fun e he =>
            this.2 e (List.mem_append_left _ he)⟩

/-- C5: the claim says every required item listed in `loot.requiredItems`
is present in the result. This is false: the drawn amount can be zero
(the amount range may include 0), in which case the entry is dropped.
Concrete input: one required item with id 5 and amount range `[0, 0]`, no
random-value range; the result is empty. -/
theorem createLoot_claim_false :
    ¬ (∀ (fuel : Nat) (catalog : List ItemInfo) (ft fs : List Nat)
        (loot : LootInfo) (fm : Bool) (r : Rng)
        (out : List (Nat × Nat) × Nat × Nat × Rng),
        createLoot fuel catalog ft fs loot fm r = some out →
        ∀ req ∈ loot.requiredItems, req.itemId ≠ 0 →
          ∃ n, (req.itemId, n) ∈ out.1) := by
  intro h
  have h0 := h 1 [] [] [] ⟨[⟨5, (0, 0)⟩], [], none, none⟩ false ⟨fun _ => 0, 0⟩
    ([], 0, 0, ⟨fun _ => 0, 1⟩) (by rfl) ⟨5, (0, 0)⟩ (by decide) (by decide)
  obtain ⟨n, hn⟩ := h0
  cases hn

/-- C5 (amended): whenever `createLoot` returns, the accumulated value of
the randomly drawn items never exceeds the desired value drawn from
`loot.value`, and every required item whose id is non-empty and whose
amount range has a positive minimum is present with a positive amount.
Required items whose drawn amount is 0 (possible when the range includes 0)
are omitted. -/
theorem createLoot_spec (fuel : Nat) (catalog : List ItemInfo)
    (ft fs : List Nat) (loot : LootInfo) (fm : Bool) (r : Rng)
    (out : List (Nat × Nat) × Nat × Nat × Rng)
    (h : createLoot fuel catalog ft fs loot fm r = some out) :
    out.2.1 ≤ out.2.2.1 ∧
    ∀ req ∈ loot.requiredItems, req.itemId ≠ 0 → 1 ≤ req.amount.1 →
      ∃ n, 0 < n ∧ (req.itemId, n) ∈ out.1 := by
  unfold createLoot at h
  rcases hv : loot.value with _ | value
  · rw [hv] at h
    dsimp only at h
    cases h
    refine ⟨le_refl 0, ?_⟩
    intro req hmem hid hmin
    exact lootRequired_mem loot.requiredItems ([], r) req hmem hid hmin
  · rw [hv] at h
    dsimp only at h
    rcases hrun : createLootRandom catalog ft fs loot fm
        ((createLootRequired loot.requiredItems r).2.pickValue value).1 fuel 0
        (createLootRequired loot.requiredItems r).1
        ((createLootRequired loot.requiredItems r).2.pickValue value).2 with
      _ | ⟨items, current, r3⟩
    · rw [hrun] at h
      cases h
    · rw [hrun] at h
      cases h
      have hspec := createLootRandom_spec catalog ft fs loot fm
        ((createLootRequired loot.requiredItems r).2.pickValue value).1 fuel 0
        (createLootRequired loot.requiredItems r).1
        ((createLootRequired loot.requiredItems r).2.pickValue value).2
        (items, current, r3) hrun (Nat.zero_le _)
      refine ⟨hspec.1, ?_⟩
      intro req hmem hid hmin
      obtain ⟨n, hn, hmemn⟩ :=
        lootRequired_mem loot.requiredItems ([], r) req hmem hid hmin
      exact ⟨n, hn, hspec.2 _ hmemn⟩

/-- Witness for C5 (amended): catalog with one item (id 9, value 3), one
required item (id 5, amount exactly 2), loot value range `[4, 4]`; the run
draws item 9 once (3 ≤ 4) and keeps the required entry `(5, 2)`. -/
theorem createLoot_spec_witness :
    (createLoot 8 [⟨9, 3, 1, false⟩] [] [] ⟨[⟨5, (2, 2)⟩], [], some (4, 4), none⟩
        false ⟨fun _ => 0, 0⟩).isSome = true ∧
    ∀ out, createLoot 8 [⟨9, 3, 1, false⟩] [] []
        ⟨[⟨5, (2, 2)⟩], [], some (4, 4), none⟩ false ⟨fun _ => 0, 0⟩ =
          some out →
      out.2.1 ≤ out.2.2.1 ∧ ∃ n, 0 < n ∧ (5, n) ∈ out.1 := by
  refine ⟨by rfl, ?_⟩
  intro out hout
  have h := createLoot_spec 8 [⟨9, 3, 1, false⟩] [] []
    ⟨[⟨5, (2, 2)⟩], [], some (4, 4), none⟩ false ⟨fun _ => 0, 0⟩ out hout
  exact ⟨h.1, h.2 ⟨5, (2, 2)⟩ (by decide) (by decide) (by decide)⟩

/-! ## C6 -/

theorem updateDistances_apply (pt : List Pos) (dist : Pos → WithTop Nat)
    (pos t : Pos) :
    updateDistances pt dist pos t =
      if t ∈ pt then
        min ((pos.distanceSquared t : Nat) : WithTop Nat) (dist t)
      else dist t := by
  induction pt generalizing dist with
  | nil => simp [updateDistances]
  | cons a rest ih =>
      simp only [updateDistances, List.foldl_cons] at *
      rw [ih]
      by_cases hta : t = a
      · subst hta
        by_cases htr : t ∈ rest
        · simp [htr, min_assoc]
        · simp [htr]
      · by_cases htr : t ∈ rest
        · simp [htr, hta]
        · simp [htr, hta, List.mem_cons]

/-- C6: the claim states that after `updateDistances(pos)` *each tile of the
grid* holds the minimum of its previous nearest-object distance and the
squared distance from `pos`. This is false: the loop only visits the zone's
`possibleTiles`; a tile outside that set keeps its old distance. Concrete
input: `possibleTiles = []`, all distances +infinity, `pos = tile = (0,0)`;
the claim demands distance `0` afterwards, the code leaves it infinite. -/
theorem updateDistances_claim_false :
    ¬ (∀ (pt : List Pos) (dist : Pos → WithTop Nat) (pos t : Pos),
        updateDistances pt dist pos t =
          min ((pos.distanceSquared t : Nat) : WithTop Nat) (dist t)) := by
  intro h
  have h0 := h [] (fun _ => ⊤) ⟨0, 0⟩ ⟨0, 0⟩
  rw [updateDistances_apply] at h0
  simp [Pos.distanceSquared] at h0

/-- C6 (amended): after `updateDistances(pos)`, each tile of the zone's
`possibleTiles` has nearest-object distance equal to the minimum of its
previous nearest-object distance and the squared distance from `pos`; every
other tile keeps its previous distance. -/
theorem updateDistances_min (pt : List Pos) (dist : Pos → WithTop Nat)
    (pos t : Pos) :
    (t ∈ pt →
      updateDistances pt dist pos t =
        min ((pos.distanceSquared t : Nat) : WithTop Nat) (dist t)) ∧
    (t ∉ pt → updateDistances pt dist pos t = dist t) := by
  constructor
  · intro ht
    rw [updateDistances_apply]
    simp [ht]
  · intro ht
    rw [updateDistances_apply]
    simp [ht]

/-- Witness for C6 (amended) at a concrete input: the tile `(0,0)` of
`possibleTiles` gets distance `min 2 ⊤ = 2` from position `(1,1)`. -/
theorem updateDistances_min_witness :
    (⟨0, 0⟩ : Pos) ∈ [(⟨0, 0⟩ : Pos)] ∧
    updateDistances [⟨0, 0⟩] (fun _ => ⊤) ⟨1, 1⟩ ⟨0, 0⟩ =
      min ((Pos.distanceSquared ⟨1, 1⟩ ⟨0, 0⟩ : Nat) : WithTop Nat)
        ((fun _ => (⊤ : WithTop Nat)) (⟨0, 0⟩ : Pos)) :=
  ⟨by decide,
   (updateDistances_min [⟨0, 0⟩] (fun _ => ⊤) ⟨1, 1⟩ ⟨0, 0⟩).1 (by decide)⟩

/-! ## C7 -/

theorem createBorder_preserves_nonpossible (size : Nat) (zoneId : Pos → Nat)
    (id : Nat) (borderType : ZoneBorderType) (gapChance : Nat)
    (tiles : List Pos) (st : BorderState) (t : Pos)
    (h : st.occ t ≠ TileType.possible) :
    (createBorder size zoneId id borderType gapChance tiles st).occ t =
      st.occ t := by
  induction tiles generalizing st with
  | nil => rfl
  | cons a rest ih =>
      have hstep :
          (createBorderStep size zoneId id borderType gapChance st a).occ t =
            st.occ t := by
        unfold createBorderStep
        by_cases hcond :
            (hasOtherZoneNeighbor size zoneId id a &&
              st.occ a = TileType.possible : Bool)
        · have hat : t ≠ a := by
            intro he
            subst he
            simp only [Bool.and_eq_true, decide_eq_true_eq] at hcond
            exact h hcond.2
          cases borderType <;> simp [hcond, hat]
        · simp [hcond]
      have h' :
          (createBorderStep size zoneId id borderType gapChance st a).occ t ≠
            TileType.possible := by
        rw [hstep]; exact h
      calc (createBorder size zoneId id borderType gapChance (a :: rest) st).occ t
          = (createBorder size zoneId id borderType gapChance rest
              (createBorderStep size zoneId id borderType gapChance st a)).occ t := rfl
        _ = (createBorderStep size zoneId id borderType gapChance st a).occ t :=
              ih _ h'
        _ = st.occ t := hstep

/-- C7: the claim states that after `createBorder`, with border type Closed
no zone tile bordering another zone is left `Free`, and with Open none is
left `Blocked`. This is false: the loop only rewrites tiles that are still
`Possible`; a border tile already carved `Free` stays `Free` under a Closed
border. Concrete input: a 2×2 map, zone 1 = left column, zone 2 = right
column, `tileInfo = [(0,0)]` with `(0,0)` already `Free`. -/
theorem createBorder_claim_false :
    ¬ (∀ (size : Nat) (zoneId : Pos → Nat) (id gapChance : Nat)
        (tiles : List Pos) (st : BorderState) (t : Pos),
        t ∈ tiles →
        hasOtherZoneNeighbor size zoneId id t = true →
        (createBorder size zoneId id ZoneBorderType.closed gapChance tiles
            st).occ t ≠ TileType.free) := by
  intro h
  have h0 := h 2 (fun p => if p.x = 0 then 1 else 2) 1 0 [⟨0, 0⟩]
    { occ := fun _ => TileType.free
      waterPainted := fun _ => false
      rng := ⟨fun _ => 0, 0⟩ } ⟨0, 0⟩ (by decide) (by decide)
  exact h0 (by decide)

/-- C7 (amended): after `createBorder`, every zone tile that borders another
zone *and was `Possible` before the call* ends `Blocked` when the border
type is Closed, and ends `Free` when the border type is Open. Tiles already
out of the `Possible` state are left untouched. -/
theorem createBorder_border_tiles (size : Nat) (zoneId : Pos → Nat)
    (id gapChance : Nat) (borderType : ZoneBorderType) (tiles : List Pos)
    (st : BorderState) (t : Pos)
    (hmem : t ∈ tiles)
    (hborder : hasOtherZoneNeighbor size zoneId id t = true)
    (hposs : st.occ t = TileType.possible) :
    (borderType = ZoneBorderType.closed →
      (createBorder size zoneId id borderType gapChance tiles st).occ t =
        TileType.blocked) ∧
    (borderType = ZoneBorderType.opened →
      (createBorder size zoneId id borderType gapChance tiles st).occ t =
        TileType.free) := by
  induction tiles generalizing st with
  | nil => cases hmem
  | cons a rest ih =>
      by_cases hat : a = t
      · subst hat
        have hcond :
            (hasOtherZoneNeighbor size zoneId id a &&
              st.occ a = TileType.possible : Bool) = true := by
          simp [hborder, hposs]
        constructor
        · intro hbt
          subst hbt
          have hstep :
              (createBorderStep size zoneId id ZoneBorderType.closed gapChance
                st a).occ a = TileType.blocked := by
            unfold createBorderStep
            simp [hcond]
          have := createBorder_preserves_nonpossible size zoneId id
            ZoneBorderType.closed gapChance rest
            (createBorderStep size zoneId id ZoneBorderType.closed gapChance st a)
            a (by rw [hstep]; decide)
          calc (createBorder size zoneId id ZoneBorderType.closed gapChance
                  (a :: rest) st).occ a
              = (createBorder size zoneId id ZoneBorderType.closed gapChance rest
                  (createBorderStep size zoneId id ZoneBorderType.closed gapChance
                    st a)).occ a := rfl
            _ = _ := by rw [this, hstep]
        · intro hbt
          subst hbt
          have hstep :
              (createBorderStep size zoneId id ZoneBorderType.opened gapChance
                st a).occ a = TileType.free := by
            unfold createBorderStep
            simp [hcond]
          have := createBorder_preserves_nonpossible size zoneId id
            ZoneBorderType.opened gapChance rest
            (createBorderStep size zoneId id ZoneBorderType.opened gapChance st a)
            a (by rw [hstep]; decide)
          calc (createBorder size zoneId id ZoneBorderType.opened gapChance
                  (a :: rest) st).occ a
              = (createBorder size zoneId id ZoneBorderType.opened gapChance rest
                  (createBorderStep size zoneId id ZoneBorderType.opened gapChance
                    st a)).occ a := rfl
            _ = _ := by rw [this, hstep]
      · have hmem' : t ∈ rest := by
          cases hmem with
          | head => exact absurd rfl hat
          | tail _ h => exact h
        have hocc :
            (createBorderStep size zoneId id borderType gapChance st a).occ t =
              st.occ t := by
          unfold createBorderStep
          have hta : t ≠ a := fun he => hat he.symm
          by_cases hcond :
              (hasOtherZoneNeighbor size zoneId id a &&
                st.occ a = TileType.possible : Bool)
          · cases borderType <;> simp [hcond, hta]
          · simp [hcond]
        have := ih (createBorderStep size zoneId id borderType gapChance st a)
          hmem' (by rw [hocc]; exact hposs)
        exact this

/-- Witness for C7 (amended): a 2×2 map, zone 1 = left column, the tile
`(0,0)` is `Possible` and borders zone 2; a Closed border blocks it. -/
theorem createBorder_border_tiles_witness :
    ((⟨0, 0⟩ : Pos) ∈ [(⟨0, 0⟩ : Pos)] ∧
     hasOtherZoneNeighbor 2 (fun p => if p.x = 0 then 1 else 2) 1 ⟨0, 0⟩ = true ∧
     BorderState.occ
       { occ := fun _ => TileType.possible
         waterPainted := fun _ => false
         rng := ⟨fun _ => 0, 0⟩ } ⟨0, 0⟩ = TileType.possible) ∧
    (createBorder 2 (fun p => if p.x = 0 then 1 else 2) 1
        ZoneBorderType.closed 0 [⟨0, 0⟩]
        { occ := fun _ => TileType.possible
          waterPainted := fun _ => false
          rng := ⟨fun _ => 0, 0⟩ }).occ ⟨0, 0⟩ = TileType.blocked := by
  refine ⟨⟨by decide, by decide, by decide⟩, ?_⟩
  exact (createBorder_border_tiles 2 (fun p => if p.x = 0 then 1 else 2) 1 0
    ZoneBorderType.closed [⟨0, 0⟩]
    { occ := fun _ => TileType.possible
      waterPainted := fun _ => false
      rng := ⟨fun _ => 0, 0⟩ } ⟨0, 0⟩ (by decide) (by decide) (by decide)).1 rfl

/-! ## C9 -/

theorem readDiplomacyRelation_good (r : DipRelation)
    (h : badRelation r = false) : readDiplomacyRelation r = Except.ok r := by
  unfold badRelation at h
  simp only [Bool.or_eq_false_iff] at h
  unfold readDiplomacyRelation
  rw [if_neg (by simp [h.1]), if_neg (by simp [h.2])]

theorem readDiplomacyRelation_bad (r : DipRelation)
    (h : badRelation r = true) :
    ∃ e, readDiplomacyRelation r = Except.error e := by
  unfold badRelation at h
  unfold readDiplomacyRelation
  rcases Bool.or_eq_true_iff.1 h with h1 | h2
  · exact ⟨_, by rw [if_pos h1]⟩
  · by_cases h1 : (r.alliance && r.alwaysAtWar : Bool)
    · exact ⟨_, by rw [if_pos h1]⟩
    · exact ⟨_, by rw [if_neg h1, if_pos h2]⟩

theorem validateRelations_char (rels : List DipRelation) :
    (validateRelations rels = Except.ok rels ∧
      ∀ r ∈ rels, badRelation r = false) ∨
    ((∃ e, validateRelations rels = Except.error e) ∧
      ∃ r ∈ rels, badRelation r = true) := by
  induction rels with
  | nil => exact Or.inl ⟨rfl, by intro r hr; cases hr⟩
  | cons a rest ih =>
      by_cases hbad : badRelation a = true
      · right
        obtain ⟨e, he⟩ := readDiplomacyRelation_bad a hbad
        exact ⟨⟨e, by unfold validateRelations; rw [he]⟩,
          a, List.mem_cons_self a rest, hbad⟩
      · have hgood : badRelation a = false := by
          cases h : badRelation a
          · rfl
          · exact absurd h hbad
        have hok := readDiplomacyRelation_good a hgood
        rcases ih with ⟨hrest, hall⟩ | ⟨⟨e, he⟩, r, hr, hbadr⟩
        · left
          constructor
          · unfold validateRelations
            rw [hok, hrest]
          · intro r hr
            rcases List.mem_cons.1 hr with heq | hm
            · exact heq ▸ hgood
            · exact hall r hm
        · right
          refine ⟨⟨e, ?_⟩, r, List.mem_cons_of_mem a hr, hbadr⟩
          unfold validateRelations
          rw [hok, he]

theorem hasDuplicateRelation_iff (rels : List DipRelation) :
    hasDuplicateRelation rels = true ↔ ¬ rels.Nodup := by
  induction rels with
  | nil => simp [hasDuplicateRelation]
  | cons a rest ih =>
      simp only [hasDuplicateRelation, Bool.or_eq_true,
        decide_eq_true_eq, List.nodup_cons, ih]
      tauto

/-- C9: the diplomacy/contents validation of the template reader rejects
exactly the invalid inputs named by the claim. `readDiplomacy` fails iff
some relation has both `alliance` and `alwaysAtWar` set, or has
`permanentAlliance` without `alliance`, or the relation list has a
duplicate; the starting-zone check of `readContents` fails iff the number of
player or AI starting zones exceeds the effective `maxPlayers`. -/
theorem templateValidation_rejects_iff (rels : List DipRelation)
    (settingsMaxPlayers contentsMaxPlayers : Nat)
    (zoneTypes : List TemplateZoneType) :
    ((∃ e, readDiplomacy rels = Except.error e) ↔
      ((∃ r ∈ rels, badRelation r = true) ∨ ¬ rels.Nodup)) ∧
    ((∃ e, readContentsCheck settingsMaxPlayers contentsMaxPlayers zoneTypes =
        Except.error e) ↔
      effectiveMaxPlayers settingsMaxPlayers contentsMaxPlayers <
        startingZoneCount zoneTypes) := by
  constructor
  · rcases validateRelations_char rels with ⟨hok, hall⟩ | ⟨⟨e, he⟩, r, hr, hbad⟩
    · unfold readDiplomacy
      rw [hok]
      dsimp only
      by_cases hdup : hasDuplicateRelation rels
      · have hnd : ¬ rels.Nodup := (hasDuplicateRelation_iff rels).1 hdup
        constructor
        · intro _
          exact Or.inr hnd
        · intro _
          exact ⟨"Duplicate diplomacy relations found", by rw [if_pos hdup]⟩
      · have hnodup : rels.Nodup := by
          by_contra hn
          exact hdup ((hasDuplicateRelation_iff rels).2 hn)
        constructor
        · rintro ⟨e, he⟩
          rw [if_neg hdup] at he
          cases he
        · rintro (⟨r, hr, hbad⟩ | hn)
          · rw [hall r hr] at hbad
            cases hbad
          · exact absurd hnodup hn
    · unfold readDiplomacy
      rw [he]
      dsimp only
      constructor
      · intro _
        exact Or.inl ⟨r, hr, hbad⟩
      · intro _
        exact ⟨e, rfl⟩
  · unfold readContentsCheck
    by_cases hlt :
        effectiveMaxPlayers settingsMaxPlayers contentsMaxPlayers <
          startingZoneCount zoneTypes
    · simp only [hlt, iff_true]
      exact ⟨"Invalid template contents: too many starting zones", by
        simp only [hlt, if_true]⟩
    · simp only [hlt, iff_false]
      rintro ⟨e, he⟩
      simp only [hlt, if_false] at he
      cases he

end D2RSG
